import Mathlib

/-!
# WPS AirSheet facade (`src/javascript/wps-airsheet-api.js`)

A shallow embedding of the dispatch facade.  The spreadsheet object model of the
host application is external to the repository; it is represented by a `Host`:
the workbook's sheet collection is an observation of the document state, every
other member access is answered by the host and may raise.  Every access to the
object model is recorded in a trace, so that "no operation is invoked" is a
statement about that trace.  A JS `Error` is represented by its `message`.
Console output is not modelled.
-/

namespace AirSheet

/-! ## JS values -/

/-- JS values crossing the facade boundary.  Numbers are restricted to integers
and plain objects are left out (they only occur as typed option bags below). -/
inductive JSVal where
  | undefined : JSVal
  | null : JSVal
  | bool (b : Bool) : JSVal
  | num (n : Int) : JSVal
  | str (s : String) : JSVal
  | arr (items : List JSVal) : JSVal

/-- JS truthiness, as used by `if (v)`, `!v`, `v ? a : b`, `v || d`. -/
def JSVal.truthy : JSVal → Bool
  | .undefined => false
  | .null => false
  | .bool b => b
  | .num n => n != 0
  | .str s => s != ""
  | .arr _ => true

/-- `Array.isArray(v)`. -/
def JSVal.isArray : JSVal → Bool
  | .arr _ => true
  | _ => false

/-- `s.includes(searchString)` on strings: some position of `s` starts with
`searchString`. -/
def includes (s searchString : String) : Bool :=
  s.data.tails.any (fun t => searchString.data.isPrefixOf t)

/-- Substring relation on strings, stated on the character sequences. -/
def IsSubstring (t s : String) : Prop :=
  ∃ pre post : List Char, s.data = pre ++ (t.data ++ post)

/-! ## The external object model -/

/-- Handle of a worksheet object. -/
abbrev SheetRef := Nat
/-- Handle of a range object (`ws.Range(a)`, `ws.Rows(i)`, `ws.UsedRange`, ...). -/
abbrev RangeRef := Nat
/-- Handle of a `range.Font` object. -/
abbrev FontRef := Nat
/-- Handle of a `range.Borders` object. -/
abbrev BordersRef := Nat

/-- A cell object returned by `Find` / `FindNext`, with the four properties the
facade reads from it. -/
structure Cell where
  Address : JSVal
  Value : JSVal
  Row : Int
  Column : Int

/-- Member accesses on the external object model, indexed by the type of their
result.  The constructor names follow the members used in the source. -/
inductive ExtCall : Type → Type where
  | Range (ws : SheetRef) (address : JSVal) : ExtCall RangeRef
  | Value_get (range : RangeRef) : ExtCall JSVal
  | Value_set (range : RangeRef) (value : JSVal) : ExtCall Unit
  | Clear (range : RangeRef) : ExtCall Unit
  | ClearContents (range : RangeRef) : ExtCall Unit
  | Formula_get (range : RangeRef) : ExtCall JSVal
  | Formula_set (range : RangeRef) (formula : JSVal) : ExtCall Unit
  | Font (range : RangeRef) : ExtCall FontRef
  | Font_Name_set (font : FontRef) (v : JSVal) : ExtCall Unit
  | Font_Size_set (font : FontRef) (v : JSVal) : ExtCall Unit
  | Font_Bold_set (font : FontRef) (v : JSVal) : ExtCall Unit
  | Font_Italic_set (font : FontRef) (v : JSVal) : ExtCall Unit
  | Font_Color_set (font : FontRef) (v : JSVal) : ExtCall Unit
  | Interior_Color_set (range : RangeRef) (color : JSVal) : ExtCall Unit
  | HorizontalAlignment_set (range : RangeRef) (v : JSVal) : ExtCall Unit
  | VerticalAlignment_set (range : RangeRef) (v : JSVal) : ExtCall Unit
  | Borders (range : RangeRef) : ExtCall BordersRef
  | Borders_LineStyle_set (borders : BordersRef) (v : JSVal) : ExtCall Unit
  | Borders_Weight_set (borders : BordersRef) (v : JSVal) : ExtCall Unit
  | Borders_Color_set (borders : BordersRef) (v : JSVal) : ExtCall Unit
  | NumberFormat_set (range : RangeRef) (format : JSVal) : ExtCall Unit
  | Rows (ws : SheetRef) (rowIndex : JSVal) : ExtCall RangeRef
  | Columns (ws : SheetRef) (columnIndex : JSVal) : ExtCall RangeRef
  | Insert (range : RangeRef) : ExtCall Unit
  | Delete (range : RangeRef) : ExtCall Unit
  | RowHeight_set (range : RangeRef) (height : JSVal) : ExtCall Unit
  | ColumnWidth_set (range : RangeRef) (width : JSVal) : ExtCall Unit
  | Columns_AutoFit (range : RangeRef) : ExtCall Unit
  | Find (range : RangeRef) (searchText : JSVal) : ExtCall (Option Cell)
  | FindNext (range : RangeRef) (after : Cell) : ExtCall (Option Cell)
  | Replace (range : RangeRef) (searchText replaceText : JSVal) : ExtCall JSVal
  | Sort (range key : RangeRef) (order : JSVal) (header : Nat) : ExtCall Unit
  | Copy (range : RangeRef) (destination : Option RangeRef) : ExtCall Unit
  | Select (range : RangeRef) : ExtCall Unit
  | Merge (range : RangeRef) : ExtCall Unit
  | UnMerge (range : RangeRef) : ExtCall Unit
  | Paste (ws : SheetRef) : ExtCall Unit
  | UsedRange (ws : SheetRef) : ExtCall RangeRef
  | Worksheets_Add : ExtCall SheetRef
  | Worksheets_Item (index : JSVal) : ExtCall SheetRef
  | Worksheets_Count : ExtCall JSVal
  | Sheet_Name_set (ws : SheetRef) (name : String) : ExtCall Unit
  | Sheet_Delete (ws : SheetRef) : ExtCall Unit

/-- The host application owning a document of type `σ`.  `sheets` is
`Application.ActiveWorkbook.Sheets` in workbook order, `sheetName` the `Name` of
a sheet and `activeSheet` is `Application.ActiveSheet`; `call` answers every
other member access, possibly changing the document, possibly raising. -/
structure Host (σ : Type) where
  activeSheet : σ → SheetRef
  sheets : σ → List SheetRef
  sheetName : σ → SheetRef → String
  call : {α : Type} → ExtCall α → σ → Except String α × σ

/-- One recorded access to the object model. -/
inductive Event : Type 1 where
  | ActiveSheet : Event
  | Sheets_Count : Event
  | Sheets_Item (i : Nat) : Event
  | Name_get (ws : SheetRef) : Event
  | call {α : Type} (c : ExtCall α) : Event

/-- Machine state: the host document and the trace of accesses made so far. -/
structure State (σ : Type) where
  doc : σ
  trace : List Event

/-- Append an event to the trace. -/
def State.log (s : State σ) (e : Event) : State σ :=
  { s with trace := s.trace ++ [e] }

/-- Computations of the facade: read and change the state, return a value or
raise an error (its message); the state survives a raise. -/
def M (σ : Type) (α : Type) : Type 1 :=
  State σ → Except String α × State σ

/-- Sequencing: an error of the first computation skips the second. -/
def M.bind (x : M σ α) (f : α → M σ β) : M σ β := fun s =>
  match x s with
  | (.ok a, s1) => f a s1
  | (.error e, s1) => (.error e, s1)

instance : Monad (M σ) where
  pure a := fun s => (.ok a, s)
  bind := M.bind

/-- Raising: `throw new Error(message)`. -/
def raise (message : String) : M σ α := fun s => (.error message, s)

/-- Handling: `try { body } catch (error) { handler(error.message) }`. -/
def tryCatch (body : M σ α) (handler : String → M σ α) : M σ α := fun s =>
  match body s with
  | (.ok a, s1) => (.ok a, s1)
  | (.error e, s1) => handler e s1

/-- `Application.ActiveSheet`. -/
def ActiveSheet (H : Host σ) : M σ SheetRef := fun s =>
  (.ok (H.activeSheet s.doc), s.log .ActiveSheet)

/-- `workbook.Sheets.Count`. -/
def Sheets_Count (H : Host σ) : M σ Nat := fun s =>
  (.ok (H.sheets s.doc).length, s.log .Sheets_Count)

/-- `workbook.Sheets(i)` / `sheets.Item(i)`, 1-based; an index outside the
collection raises. -/
def Sheets_Item (H : Host σ) (i : Nat) : M σ SheetRef := fun s =>
  if 1 ≤ i then
    match (H.sheets s.doc)[i - 1]? with
    | some ws => (.ok ws, s.log (.Sheets_Item i))
    | none => (.error "Sheets: index out of range", s.log (.Sheets_Item i))
  else (.error "Sheets: index out of range", s.log (.Sheets_Item i))

/-- `sheet.Name`. -/
def Name_get (H : Host σ) (ws : SheetRef) : M σ String := fun s =>
  (.ok (H.sheetName s.doc ws), s.log (.Name_get ws))

/-- Any other member access: ask the host, record the access. -/
def ext (H : Host σ) (c : ExtCall α) : M σ α := fun s =>
  let r := H.call c s.doc
  (r.1, { doc := r.2, trace := s.trace ++ [.call c] })

/-! ## Worksheet resolver -/

/-- A counting loop whose body may `return`: the body is run for the successive
values of the loop variable, `some v` is `return v`, `none` goes on with the
next value; the loop falling through gives `none`. -/
def forReturn (body : Nat → M σ (Option β)) : List Nat → M σ (Option β)
  | [] => pure none
  | i :: rest => do
    match ← body i with
    | some v => pure (some v)
    | none => forReturn body rest

/-- The loop `for (let i = 1; i <= sheetCount; i++) { const sheet =
workbook.Sheets(i); if (test(sheet.Name)) return sheet; }`, which appears in
`getWorksheetByName` and `worksheetExists` with `sheet.Name === sheetName` and
with `sheet.Name.includes(sheetName)` as test. -/
def scanSheets (H : Host σ) (sheetCount : Nat) (test : String → Bool) :
    M σ (Option SheetRef) :=
  forReturn (fun i => do
    let sheet ← Sheets_Item H i
    let name ← Name_get H sheet
    if test name then pure (some sheet) else pure none) (List.range' 1 sheetCount)

/-- The function `getWorksheetByName(sheetName)`; `none` as argument is a call
without it, `none` as result is `null`. -/
def getWorksheetByName (H : Host σ) (sheetName : Option String) :
    M σ (Option SheetRef) :=
  match sheetName with
  | none => do
    let ws ← ActiveSheet H
    pure (some ws)
  | some sheetName =>
    if sheetName = "" then do
      let ws ← ActiveSheet H
      pure (some ws)
    else do
      let sheetCount ← Sheets_Count H
      match ← scanSheets H sheetCount (fun name => name == sheetName) with
      | some sheet => pure (some sheet)
      | none =>
        match ← scanSheets H sheetCount (fun name => includes name sheetName) with
        | some sheet => pure (some sheet)
        | none => pure none

/-- The function `worksheetExists(sheetName)` on the active workbook.  A missing
argument is `undefined`: `===` never finds it equal to a name, and `includes`
converts it to the string "undefined". -/
def worksheetExists (H : Host σ) (sheetName : Option String) : M σ Bool := do
  let sheetCount ← Sheets_Count H
  match ← scanSheets H sheetCount (fun name => sheetName == some name) with
  | some _ => pure true
  | none =>
    match ← scanSheets H sheetCount
        (fun name => includes name (sheetName.getD "undefined")) with
    | some _ => pure true
    | none => pure false

/-! ## Range accessor -/

/-- The second argument of `getRange`: missing, a sheet name, or a sheet object. -/
inductive SheetArg where
  | absent : SheetArg
  | name (sheetName : String) : SheetArg
  | sheet (ws : SheetRef) : SheetArg

/-- An optional sheet name as passed on to `getRange` by the operations. -/
def SheetArg.ofName : Option String → SheetArg
  | none => .absent
  | some sheetName => .name sheetName

/-- The prefix of the message `getRange` raises for an unresolved sheet name. -/
def worksheetNotFound : String := "未找到工作表: "

/-- The function `getRange(address, worksheetOrName)`.  A missing argument and
the empty string are falsy and give the active sheet. -/
def getRange (H : Host σ) (address : JSVal) (worksheetOrName : SheetArg) :
    M σ RangeRef := do
  let ws ← (match worksheetOrName with
    | .absent => ActiveSheet H
    | .name sheetName =>
      if sheetName = "" then ActiveSheet H
      else do
        match ← getWorksheetByName H (some sheetName) with
        | some ws => pure ws
        | none => raise (worksheetNotFound ++ sheetName)
    | .sheet ws => pure ws)
  ext H (.Range ws address)

/-- The message of the `TypeError` the JS engine raises when a member is read
from `null` or `undefined`; `base` is "null" or "undefined", and the member
stands between single quotes (the character `\x27`). -/
def typeError (base member : String) : String :=
  "Cannot read properties of " ++ base ++ " (reading \x27" ++ member ++ "\x27)"

/-! ## Cell and range operations -/

/-- The function `getCellValue(address, sheetName)`. -/
def getCellValue (H : Host σ) (address : JSVal) (sheetName : Option String) :
    M σ JSVal := do
  let range ← getRange H address (.ofName sheetName)
  ext H (.Value_get range)

/-- The function `setCellValue(address, value, sheetName)`. -/
def setCellValue (H : Host σ) (address value : JSVal) (sheetName : Option String) :
    M σ Unit := do
  let range ← getRange H address (.ofName sheetName)
  ext H (.Value_set range value)

/-- The function `getRangeValues(address, sheetName)`. -/
def getRangeValues (H : Host σ) (address : JSVal) (sheetName : Option String) :
    M σ JSVal := do
  let range ← getRange H address (.ofName sheetName)
  ext H (.Value_get range)

/-- The function `setRangeValues(address, values, sheetName)`. -/
def setRangeValues (H : Host σ) (address values : JSVal) (sheetName : Option String) :
    M σ Unit := do
  let range ← getRange H address (.ofName sheetName)
  ext H (.Value_set range values)

/-- The function `clearRange(address, sheetName)`. -/
def clearRange (H : Host σ) (address : JSVal) (sheetName : Option String) :
    M σ Unit := do
  let range ← getRange H address (.ofName sheetName)
  ext H (.Clear range)

/-- The function `clearRangeContents(address, sheetName)`. -/
def clearRangeContents (H : Host σ) (address : JSVal) (sheetName : Option String) :
    M σ Unit := do
  let range ← getRange H address (.ofName sheetName)
  ext H (.ClearContents range)

/-- The function `getCellFormula(address, sheetName)`. -/
def getCellFormula (H : Host σ) (address : JSVal) (sheetName : Option String) :
    M σ JSVal := do
  let range ← getRange H address (.ofName sheetName)
  ext H (.Formula_get range)

/-- The function `setCellFormula(address, formula, sheetName)`. -/
def setCellFormula (H : Host σ) (address formula : JSVal)
    (sheetName : Option String) : M σ Unit := do
  let range ← getRange H address (.ofName sheetName)
  ext H (.Formula_set range formula)

/-- The bag `fontOptions`; a field that is not supplied is `undefined`. -/
structure FontOptions where
  name : JSVal
  size : JSVal
  bold : JSVal
  italic : JSVal
  color : JSVal

/-- The test `v !== undefined`. -/
def JSVal.isDefined : JSVal → Bool
  | .undefined => false
  | _ => true

/-- The function `setCellFont(address, fontOptions, sheetName)`; `none` is a
missing bag, from which reading `name` raises. -/
def setCellFont (H : Host σ) (address : JSVal) (fontOptions : Option FontOptions)
    (sheetName : Option String) : M σ Unit := do
  let range ← getRange H address (.ofName sheetName)
  let font ← ext H (.Font range)
  match fontOptions with
  | none => raise (typeError "undefined" "name")
  | some fontOptions => do
    if fontOptions.name.truthy then ext H (.Font_Name_set font fontOptions.name)
    if fontOptions.size.truthy then ext H (.Font_Size_set font fontOptions.size)
    if fontOptions.bold.isDefined then ext H (.Font_Bold_set font fontOptions.bold)
    if fontOptions.italic.isDefined then
      ext H (.Font_Italic_set font fontOptions.italic)
    if fontOptions.color.truthy then ext H (.Font_Color_set font fontOptions.color)

/-- The function `setCellBackgroundColor(address, color, sheetName)`. -/
def setCellBackgroundColor (H : Host σ) (address color : JSVal)
    (sheetName : Option String) : M σ Unit := do
  let range ← getRange H address (.ofName sheetName)
  ext H (.Interior_Color_set range color)

/-- The bag `alignOptions`. -/
structure AlignOptions where
  horizontal : JSVal
  vertical : JSVal

/-- The function `setCellAlignment(address, alignOptions, sheetName)`. -/
def setCellAlignment (H : Host σ) (address : JSVal)
    (alignOptions : Option AlignOptions) (sheetName : Option String) : M σ Unit := do
  let range ← getRange H address (.ofName sheetName)
  match alignOptions with
  | none => raise (typeError "undefined" "horizontal")
  | some alignOptions => do
    if alignOptions.horizontal.truthy then
      ext H (.HorizontalAlignment_set range alignOptions.horizontal)
    if alignOptions.vertical.truthy then
      ext H (.VerticalAlignment_set range alignOptions.vertical)

/-- The bag `borderOptions`. -/
structure BorderOptions where
  lineStyle : JSVal
  weight : JSVal
  color : JSVal

/-- The function `setCellBorder(address, borderOptions, sheetName)`. -/
def setCellBorder (H : Host σ) (address : JSVal)
    (borderOptions : Option BorderOptions) (sheetName : Option String) : M σ Unit := do
  let range ← getRange H address (.ofName sheetName)
  let borders ← ext H (.Borders range)
  match borderOptions with
  | none => raise (typeError "undefined" "lineStyle")
  | some borderOptions => do
    if borderOptions.lineStyle.truthy then
      ext H (.Borders_LineStyle_set borders borderOptions.lineStyle)
    if borderOptions.weight.truthy then
      ext H (.Borders_Weight_set borders borderOptions.weight)
    if borderOptions.color.truthy then
      ext H (.Borders_Color_set borders borderOptions.color)

/-- The function `setCellNumberFormat(address, format, sheetName)`. -/
def setCellNumberFormat (H : Host σ) (address format : JSVal)
    (sheetName : Option String) : M σ Unit := do
  let range ← getRange H address (.ofName sheetName)
  ext H (.NumberFormat_set range format)

/-! ## Rows and columns -/

/-- A counting loop `for (let i = 0; i < count; i++) { body }` whose body does
not mention `i`: the body is run `count` times. -/
def times (body : M σ Unit) : Nat → M σ Unit
  | 0 => pure ()
  | n + 1 => do
    body
    times body n

/-- Reading a member of the sheet `getWorksheetByName` returned: `null` raises. -/
def member (ws : Option SheetRef) (name : String) (read : SheetRef → M σ α) :
    M σ α :=
  match ws with
  | some ws => read ws
  | none => raise (typeError "null" name)

/-- The function `insertRows(rowIndex, count = 1, sheetName)`; `count` is an
integer when supplied. -/
def insertRows (H : Host σ) (rowIndex : JSVal) (count : Option Int)
    (sheetName : Option String) : M σ Unit := do
  let count := count.getD 1
  let ws ← getWorksheetByName H sheetName
  let range ← member ws "Rows" (fun ws => ext H (.Rows ws rowIndex))
  times (ext H (.Insert range)) count.toNat

/-- The function `deleteRows(rowIndex, count = 1, sheetName)`. -/
def deleteRows (H : Host σ) (rowIndex : JSVal) (count : Option Int)
    (sheetName : Option String) : M σ Unit := do
  let count := count.getD 1
  let ws ← getWorksheetByName H sheetName
  times (do
    let range ← member ws "Rows" (fun ws => ext H (.Rows ws rowIndex))
    ext H (.Delete range)) count.toNat

/-- The function `insertColumns(columnIndex, count = 1, sheetName)`. -/
def insertColumns (H : Host σ) (columnIndex : JSVal) (count : Option Int)
    (sheetName : Option String) : M σ Unit := do
  let count := count.getD 1
  let ws ← getWorksheetByName H sheetName
  let range ← member ws "Columns" (fun ws => ext H (.Columns ws columnIndex))
  times (ext H (.Insert range)) count.toNat

/-- The function `deleteColumns(columnIndex, count = 1, sheetName)`. -/
def deleteColumns (H : Host σ) (columnIndex : JSVal) (count : Option Int)
    (sheetName : Option String) : M σ Unit := do
  let count := count.getD 1
  let ws ← getWorksheetByName H sheetName
  times (do
    let range ← member ws "Columns" (fun ws => ext H (.Columns ws columnIndex))
    ext H (.Delete range)) count.toNat

/-- The function `setRowHeight(rowIndex, height, sheetName)`. -/
def setRowHeight (H : Host σ) (rowIndex height : JSVal)
    (sheetName : Option String) : M σ Unit := do
  let ws ← getWorksheetByName H sheetName
  let row ← member ws "Rows" (fun ws => ext H (.Rows ws rowIndex))
  ext H (.RowHeight_set row height)

/-- The function `setColumnWidth(columnIndex, width, sheetName)`. -/
def setColumnWidth (H : Host σ) (columnIndex width : JSVal)
    (sheetName : Option String) : M σ Unit := do
  let ws ← getWorksheetByName H sheetName
  let column ← member ws "Columns" (fun ws => ext H (.Columns ws columnIndex))
  ext H (.ColumnWidth_set column width)

/-- The function `autoFitColumns(address, sheetName)`. -/
def autoFitColumns (H : Host σ) (address : JSVal) (sheetName : Option String) :
    M σ Unit := do
  let range ← getRange H address (.ofName sheetName)
  ext H (.Columns_AutoFit range)

/-! ## Find and replace -/

/-- The constant `maxIterations` of `findCell` and `findAllCells`. -/
def maxIterations : Nat := 10000

/-- The `do { ... } while (...)` loop of `findCell` and `findAllCells`, which
differ only in what they push: `findCell` pushes a snapshot of the current cell,
`findAllCells` the cell itself (`push`).  One call is one pass through the body
followed by the loop test. -/
def findLoop (H : Host σ) (push : Cell → β) (range : RangeRef)
    (firstRow firstCol : Int) (currentCell : Cell) (count : Nat) (result : List β) :
    M σ (List β) := do
  let result := result ++ [push currentCell]
  let next ← ext H (.FindNext range currentCell)
  let count := count + 1
  if _hcap : count > maxIterations then
    pure result
  else
    match next with
    | some currentCell =>
      if currentCell.Row = firstRow ∧ currentCell.Column = firstCol then
        pure result
      else
        findLoop H push range firstRow firstCol currentCell count result
    | none => pure result
termination_by maxIterations + 1 - count
decreasing_by
  simp only [gt_iff_lt, not_lt] at _hcap
  omega

/-- An element of the array `findCell` returns. -/
structure CellMatch where
  address : JSVal
  value : JSVal
  row : Int
  column : Int

/-- The object `{address, value, row, column}` built from a cell. -/
def CellMatch.ofCell (cell : Cell) : CellMatch :=
  { address := cell.Address, value := cell.Value, row := cell.Row,
    column := cell.Column }

/-- The function `findCell(searchText, searchRange, sheetName)`. -/
def findCell (H : Host σ) (searchText searchRange : JSVal)
    (sheetName : Option String) : M σ (List CellMatch) := do
  let range ← getRange H searchRange (.ofName sheetName)
  let firstCell ← ext H (.Find range searchText)
  match firstCell with
  | none => pure []
  | some firstCell =>
    findLoop H CellMatch.ofCell range firstCell.Row firstCell.Column firstCell 0 []

/-- The function `findAllCells(searchText, searchRange, sheetName)`. -/
def findAllCells (H : Host σ) (searchText searchRange : JSVal)
    (sheetName : Option String) : M σ (List Cell) := do
  let range ← getRange H searchRange (.ofName sheetName)
  let firstCell ← ext H (.Find range searchText)
  match firstCell with
  | none => pure []
  | some firstCell =>
    findLoop H id range firstCell.Row firstCell.Column firstCell 0 []

/-- The function `replaceInRange(searchText, replaceText, searchRange, sheetName)`. -/
def replaceInRange (H : Host σ) (searchText replaceText searchRange : JSVal)
    (sheetName : Option String) : M σ JSVal := do
  let range ← getRange H searchRange (.ofName sheetName)
  ext H (.Replace range searchText replaceText)

/-- The function `replaceInRangeWithCount(searchText, replaceText, searchRange,
sheetName)`. -/
def replaceInRangeWithCount (H : Host σ) (searchText replaceText searchRange : JSVal)
    (sheetName : Option String) : M σ Nat := do
  let cells ← findAllCells H searchText searchRange sheetName
  let count := cells.length
  if count > 0 then do
    let range ← getRange H searchRange (.ofName sheetName)
    let _ ← ext H (.Replace range searchText replaceText)
    pure count
  else
    pure count

/-! ## Sort, copy and paste, merge -/

/-- The bag `sortOptions`. -/
structure SortOptions where
  key : JSVal
  order : JSVal
  hasHeader : JSVal

/-- The function `sortRange(address, sortOptions, sheetName)`. -/
def sortRange (H : Host σ) (address : JSVal) (sortOptions : Option SortOptions)
    (sheetName : Option String) : M σ Unit := do
  let range ← getRange H address (.ofName sheetName)
  match sortOptions with
  | none => raise (typeError "undefined" "key")
  | some sortOptions => do
    let key ← getRange H sortOptions.key (.ofName sheetName)
    let order := if sortOptions.order.truthy then sortOptions.order else JSVal.num 1
    let header := if sortOptions.hasHeader.truthy then 1 else 2
    ext H (.Sort range key order header)

/-- The function `copyRange(sourceAddress, sheetName)`. -/
def copyRange (H : Host σ) (sourceAddress : JSVal) (sheetName : Option String) :
    M σ Unit := do
  let range ← getRange H sourceAddress (.ofName sheetName)
  ext H (.Copy range none)

/-- The function `pasteToRange(targetAddress, sheetName)`. -/
def pasteToRange (H : Host σ) (targetAddress : JSVal) (sheetName : Option String) :
    M σ Unit := do
  let range ← getRange H targetAddress (.ofName sheetName)
  ext H (.Select range)
  let ws ← getWorksheetByName H sheetName
  member ws "Paste" (fun ws => ext H (.Paste ws))

/-- The function `copyPasteRange(sourceAddress, targetAddress, sourceWorksheet,
targetWorksheet)`. -/
def copyPasteRange (H : Host σ) (sourceAddress targetAddress : JSVal)
    (sourceWorksheet targetWorksheet : SheetArg) : M σ Unit := do
  let sourceRange ← getRange H sourceAddress sourceWorksheet
  let targetRange ← getRange H targetAddress targetWorksheet
  ext H (.Copy sourceRange (some targetRange))

/-- The function `mergeCells(address, sheetName)`. -/
def mergeCells (H : Host σ) (address : JSVal) (sheetName : Option String) :
    M σ Unit := do
  let range ← getRange H address (.ofName sheetName)
  ext H (.Merge range)

/-- The function `unmergeCells(address, sheetName)`. -/
def unmergeCells (H : Host σ) (address : JSVal) (sheetName : Option String) :
    M σ Unit := do
  let range ← getRange H address (.ofName sheetName)
  ext H (.UnMerge range)

/-- The function `getUsedRangeData(sheetName)`. -/
def getUsedRangeData (H : Host σ) (sheetName : Option String) : M σ JSVal := do
  let ws ← getWorksheetByName H sheetName
  let usedRange ← member ws "UsedRange" (fun ws => ext H (.UsedRange ws))
  ext H (.Value_get usedRange)

/-! ## Worksheet lifecycle -/

/-- The function `getWorkbookName()`, which returns the names of all sheets.
The source reads the bound `sheets.Count` at every loop test; the collection
does not change during the loop and it is read once here. -/
def getWorkbookName (H : Host σ) : M σ (List String) :=
  tryCatch (do
    let count ← Sheets_Count H
    (List.range' 1 count).foldlM (fun sheetNames i => do
      let sheet ← Sheets_Item H i
      let name ← Name_get H sheet
      pure (sheetNames ++ [name])) [])
  (fun _ => pure [])

/-- The function `getWorksheetByIndex(index)`. -/
def getWorksheetByIndex (H : Host σ) (index : JSVal) : M σ SheetRef :=
  ext H (.Worksheets_Item index)

/-- The function `addWorksheet(sheetName)`. -/
def addWorksheet (H : Host σ) (sheetName : Option String) : M σ SheetRef := do
  let newSheet ← ext H .Worksheets_Add
  match sheetName with
  | none => pure newSheet
  | some sheetName =>
    if sheetName = "" then pure newSheet
    else do
      ext H (.Sheet_Name_set newSheet sheetName)
      pure newSheet

/-- The function `deleteWorksheet(sheetIdentifier)`: a string is a name, any
other value an index. -/
def deleteWorksheet (H : Host σ) (sheetIdentifier : JSVal) : M σ Unit := do
  let sheet ← (match sheetIdentifier with
    | .str sheetName => getWorksheetByName H (some sheetName)
    | index => do
      let ws ← getWorksheetByIndex H index
      pure (some ws))
  member sheet "Delete" (fun ws => ext H (.Sheet_Delete ws))

/-- The function `getWorksheetCount()`. -/
def getWorksheetCount (H : Host σ) : M σ JSVal :=
  ext H .Worksheets_Count

/-! ## Number arithmetic

A JS number is a double.  On integer values the arithmetic of the source is
exact as long as the result is at most `2 ^ 53` in magnitude; beyond, the result
is rounded to 53 significant bits, to nearest, ties to even.  Magnitudes from
`2 ^ 1024` on, where the source gives `Infinity`, are not modelled. -/

/-- The unit in the last place for the magnitude `n`: the smallest power of two
`p`, from `p` on, with `n < 2 ^ 53 * p`.  The first argument bounds the number
of doublings; `n` itself is enough. -/
def ulpFrom (n : Nat) : Nat → Nat → Nat
  | 0, p => p
  | fuel + 1, p => if n < 2 ^ 53 * p then p else ulpFrom n fuel (2 * p)

/-- Rounding of a natural number to the nearest double, ties to even. -/
def roundNat (n : Nat) : Nat :=
  let p := ulpFrom n n 1
  let q := n / p
  let r := n % p
  if 2 * r < p then q * p
  else if 2 * r > p then (q + 1) * p
  else if q % 2 = 0 then q * p else (q + 1) * p

/-- Rounding of an integer to the nearest double. -/
def toDouble (x : Int) : Int :=
  if x < 0 then -((roundNat x.natAbs : Nat) : Int) else ((roundNat x.natAbs : Nat) : Int)

/-- The operator `+` on integer-valued numbers. -/
def jsAdd (a b : Int) : Int := toDouble (a + b)

/-- The operator `*` on integer-valued numbers. -/
def jsMul (a b : Int) : Int := toDouble (a * b)

/-! ## Column codec -/

/-- The `while (columnNumber > 0)` loop of `columnNumberToLetter`.  For a column
number of at most `2 ^ 53` the subtraction `columnNumber - 1` is exact and the
floor of the rounded quotient `(columnNumber - 1) / 26` is the integer quotient
(the quotient is below `2 ^ 49`, where doubles are `1 / 16` apart or closer,
and its fractional part is at most `25 / 26`); the loop is modelled on exact
natural numbers and stands for the source in that range. -/
def columnNumberToLetterLoop (columnNumber : Nat) (letter : String) : String :=
  if columnNumber > 0 then
    let remainder := (columnNumber - 1) % 26
    columnNumberToLetterLoop ((columnNumber - 1) / 26)
      (String.singleton (Char.ofNat (65 + remainder)) ++ letter)
  else letter
termination_by columnNumber
decreasing_by
  have := Nat.div_le_self (columnNumber - 1) 26
  omega

/-- The function `columnNumberToLetter(columnNumber)`. -/
def columnNumberToLetter (columnNumber : Nat) : String :=
  columnNumberToLetterLoop columnNumber ""

/-- The function `columnLetterToNumber(column)`.  The characters of the string
are its code units, which holds for every string of the Basic Multilingual
Plane; `charCodeAt(i) - 64` is exact. -/
def columnLetterToNumber (column : String) : Int :=
  column.data.foldl (fun result c => jsAdd (jsMul result 26) ((c.toNat : Int) - 64)) 0

/-- The function `rgbToExcelColor(r, g, b)`: `r + g * 256 + b * 256 * 256`. -/
def rgbToExcelColor (r g b : Int) : Int :=
  jsAdd (jsAdd r (jsMul g 256)) (jsMul (jsMul b 256) 256)

/-! ## Command dispatcher -/

/-- The parameter bag `argv` / `params`.  A field that is not supplied is
`undefined` (`none` for the typed ones). -/
structure Argv where
  items : JSVal
  function : Option String
  address : JSVal
  value : JSVal
  values : JSVal
  fontOptions : Option FontOptions
  color : JSVal
  alignOptions : Option AlignOptions
  borderOptions : Option BorderOptions
  rowIndex : JSVal
  columnIndex : JSVal
  count : Option Int
  height : JSVal
  width : JSVal
  searchText : JSVal
  replaceText : JSVal
  searchRange : JSVal
  sortOptions : Option SortOptions
  sourceAddress : JSVal
  targetAddress : JSVal
  formula : JSVal
  format : JSVal
  sheetName : Option String
  sheetIdentifier : JSVal

/-- The result envelope.  A key that the object literal does not have is `none`. -/
structure Result where
  success : Bool
  message : Option String := none
  error : Option String := none
  value : Option JSVal := none
  values : Option JSVal := none
  found : Option Bool := none
  cells : Option (List CellMatch) := none
  count : Option JSVal := none
  formula : Option JSVal := none
  data : Option JSVal := none
  sheetName : Option String := none
  sheetExists : Option Bool := none
  sheets : Option (List String) := none
  rowsWritten : Option Nat := none
  range : Option String := none

/-- The prefix of the message for a name outside the `switch`. -/
def unknownFunction : String := "未知函数: "

/-- The body of the `switch` of `executeFunction`: the delegated call and the
object pushed to `result` after it. -/
def dispatch (H : Host σ) (functionName : String) (params : Argv)
    (sheetName : Option String) : M σ Result :=
  match functionName with
  | "getCellValue" => do
    let value ← getCellValue H params.address sheetName
    pure { success := true, value := some value }
  | "setCellValue" => do
    setCellValue H params.address params.value sheetName
    pure { success := true, message := some "设置成功" }
  | "getRangeValues" => do
    let values ← getRangeValues H params.address sheetName
    pure { success := true, values := some values }
  | "setRangeValues" => do
    setRangeValues H params.address params.values sheetName
    pure { success := true, message := some "设置成功" }
  | "setCellFont" => do
    setCellFont H params.address params.fontOptions sheetName
    pure { success := true, message := some "字体设置成功" }
  | "setCellBackgroundColor" => do
    setCellBackgroundColor H params.address params.color sheetName
    pure { success := true, message := some "背景色设置成功" }
  | "setCellAlignment" => do
    setCellAlignment H params.address params.alignOptions sheetName
    pure { success := true, message := some "对齐方式设置成功" }
  | "setCellBorder" => do
    setCellBorder H params.address params.borderOptions sheetName
    pure { success := true, message := some "边框设置成功" }
  | "mergeCells" => do
    mergeCells H params.address sheetName
    pure { success := true, message := some "合并成功" }
  | "autoFitColumns" => do
    autoFitColumns H params.address sheetName
    pure { success := true, message := some "列宽调整成功" }
  | "insertRows" => do
    insertRows H params.rowIndex params.count sheetName
    pure { success := true, message := some "插入行成功" }
  | "setRowHeight" => do
    setRowHeight H params.rowIndex params.height sheetName
    pure { success := true, message := some "行高设置成功" }
  | "setColumnWidth" => do
    setColumnWidth H params.columnIndex params.width sheetName
    pure { success := true, message := some "列宽设置成功" }
  | "findCell" => do
    let cells ← findCell H params.searchText params.searchRange sheetName
    pure { success := true, found := some (decide (cells.length > 0)),
           cells := some cells }
  | "replaceInRangeWithCount" => do
    let count ← replaceInRangeWithCount H params.searchText params.replaceText
      params.searchRange sheetName
    pure { success := true, count := some (.num count) }
  | "sortRange" => do
    sortRange H params.address params.sortOptions sheetName
    pure { success := true, message := some "排序成功" }
  | "copyPasteRange" => do
    copyPasteRange H params.sourceAddress params.targetAddress
      (.ofName sheetName) (.ofName sheetName)
    pure { success := true, message := some "复制粘贴成功" }
  | "clearRange" => do
    clearRange H params.address sheetName
    pure { success := true, message := some "清除成功" }
  | "clearRangeContents" => do
    clearRangeContents H params.address sheetName
    pure { success := true, message := some "清除内容成功" }
  | "getCellFormula" => do
    let formula ← getCellFormula H params.address sheetName
    pure { success := true, formula := some formula }
  | "setCellFormula" => do
    setCellFormula H params.address params.formula sheetName
    pure { success := true, message := some "设置公式成功" }
  | "setCellNumberFormat" => do
    setCellNumberFormat H params.address params.format sheetName
    pure { success := true, message := some "设置数字格式成功" }
  | "unmergeCells" => do
    unmergeCells H params.address sheetName
    pure { success := true, message := some "取消合并成功" }
  | "deleteRows" => do
    deleteRows H params.rowIndex params.count sheetName
    pure { success := true, message := some "删除行成功" }
  | "insertColumns" => do
    insertColumns H params.columnIndex params.count sheetName
    pure { success := true, message := some "插入列成功" }
  | "deleteColumns" => do
    deleteColumns H params.columnIndex params.count sheetName
    pure { success := true, message := some "删除列成功" }
  | "findAllCells" => do
    let allCells ← findAllCells H params.searchText params.searchRange sheetName
    let cellsInfo := allCells.map CellMatch.ofCell
    pure { success := true, cells := some cellsInfo,
           count := some (.num cellsInfo.length) }
  | "copyRange" => do
    copyRange H params.sourceAddress sheetName
    pure { success := true, message := some "复制成功" }
  | "pasteToRange" => do
    pasteToRange H params.targetAddress sheetName
    pure { success := true, message := some "粘贴成功" }
  | "getUsedRangeData" => do
    let data ← getUsedRangeData H sheetName
    pure { success := true, data := some data }
  | "addWorksheet" => do
    let newSheet ← addWorksheet H params.sheetName
    let name ← Name_get H newSheet
    pure { success := true, message := some "添加工作表成功", sheetName := some name }
  | "deleteWorksheet" => do
    deleteWorksheet H params.sheetIdentifier
    pure { success := true, message := some "删除工作表成功" }
  | "worksheetExists" => do
    let found ← worksheetExists H params.sheetName
    pure { success := true, sheetExists := some found }
  | "getWorksheetCount" => do
    let count ← getWorksheetCount H
    pure { success := true, count := some count }
  | "getWorkbookName" => do
    let sheets ← getWorkbookName H
    pure { success := true, sheets := some sheets }
  | _ =>
    pure { success := false, message := some (unknownFunction ++ functionName) }

/-- The function `executeFunction(functionName, params, sheetName)`.  Every
case of the `switch` pushes once, as its last statement, so `result` is empty
when the `catch` clause pushes. -/
def executeFunction (H : Host σ) (functionName : String) (params : Argv)
    (sheetName : Option String) : M σ (List Result) :=
  tryCatch (do
    let r ← dispatch H functionName params sheetName
    pure [r])
  (fun message => pure [{ success := false, error := some message }])

/-! ## Entry point -/

/-- The object `Context` of an HTTP call. -/
structure Context where
  argv : Option Argv
  active_sheet : Option String

/-- The property `length` of a value: defined on arrays and strings (in code
units), `undefined` (`none`) otherwise. -/
def JSVal.length : JSVal → Option Nat
  | .arr items => some items.length
  | .str s => some (s.data.foldl (fun n c => n + (if c.toNat < 65536 then 1 else 2)) 0)
  | _ => none

/-- The fixed message of the bulk-write path for an empty matrix. -/
def emptyData : String := "数据为空"

/-- The `items` branch of the entry point, with its own `try` / `catch`; `data`
is the content of the array `argv.items`. -/
def bulkWrite (H : Host σ) (data : List JSVal) (sheetName : Option String) :
    M σ (List Result) :=
  tryCatch (do
    let rows := data.length
    let cols := (match data[0]? with
      | some row => if row.truthy then row.length else some 0
      | none => some 0)
    match cols with
    | some cols =>
      if rows > 0 ∧ cols > 0 then do
        let endCol := columnNumberToLetter cols
        let address := "A1:" ++ endCol ++ toString rows
        setRangeValues H (.str address) (.arr data) sheetName
        pure [{ success := true, message := some "数据写入成功",
                rowsWritten := some rows, range := some address }]
      else
        pure [{ success := false, message := some emptyData }]
    | none => pure [{ success := false, message := some emptyData }])
  (fun message => pure [{ success := false, error := some message }])

/-- The top-level script: the value of `globalResult` at its end.  `none` as
context is a run outside an HTTP call. -/
def entryPoint (H : Host σ) (context : Option Context) : M σ (List Result) :=
  match context with
  | none => pure []
  | some context =>
    match context.argv with
    | none => pure []
    | some argv =>
      tryCatch (do
        let sheetName := context.active_sheet
        match argv.items with
        | .arr data => bulkWrite H data sheetName
        | _ =>
          match argv.function with
          | some functionName =>
            if functionName = "" then
              pure [{ success := false, message := some "未指定操作" }]
            else executeFunction H functionName argv sheetName
          | none => pure [{ success := false, message := some "未指定操作" }])
      (fun message => pure [{ success := false, error := some message }])

/-! ## Trace observations -/

/-- Whether an event is a member access answered by the host (and not a read of
the sheet collection). -/
def Event.isCall : Event → Bool
  | .call _ => true
  | _ => false

/-- The host calls of a trace, in order. -/
def calls (trace : List Event) : List Event :=
  trace.filter Event.isCall

/-- Whether an event is an invocation of `Replace`. -/
def Event.isReplace : Event → Bool
  | .call (.Replace _ _ _) => true
  | _ => false

/-- The number of `Replace` invocations in a trace. -/
def replaceCalls (trace : List Event) : Nat :=
  trace.countP Event.isReplace

/-- The step from `s` to `s1` made only reads of the sheet collection: the
document is the same and no host call was added to the trace. -/
def Quiet (s s1 : State σ) : Prop :=
  s1.doc = s.doc ∧ calls s1.trace = calls s.trace

/-- The 35 command names of the closed command set, in the order of the list in
section 6 of the specification. -/
def commandNames : List String :=
  ["getCellValue", "setCellValue", "getRangeValues", "setRangeValues", "setCellFont",
   "setCellBackgroundColor", "setCellAlignment", "setCellBorder", "mergeCells",
   "unmergeCells", "autoFitColumns", "insertRows", "deleteRows", "insertColumns",
   "deleteColumns", "setRowHeight", "setColumnWidth", "findCell", "findAllCells",
   "replaceInRangeWithCount", "sortRange", "copyPasteRange", "copyRange",
   "pasteToRange", "clearRange", "clearRangeContents", "getCellFormula",
   "setCellFormula", "setCellNumberFormat", "getUsedRangeData", "addWorksheet",
   "deleteWorksheet", "worksheetExists", "getWorksheetCount", "getWorkbookName"]

/-! ## Example hosts -/

/-- An answer of the right type for every member access. -/
def ExtCall.default : {α : Type} → ExtCall α → α
  | _, .Range ws _ => ws
  | _, .Value_get _ => .undefined
  | _, .Value_set _ _ => ()
  | _, .Clear _ => ()
  | _, .ClearContents _ => ()
  | _, .Formula_get _ => .undefined
  | _, .Formula_set _ _ => ()
  | _, .Font range => range
  | _, .Font_Name_set _ _ => ()
  | _, .Font_Size_set _ _ => ()
  | _, .Font_Bold_set _ _ => ()
  | _, .Font_Italic_set _ _ => ()
  | _, .Font_Color_set _ _ => ()
  | _, .Interior_Color_set _ _ => ()
  | _, .HorizontalAlignment_set _ _ => ()
  | _, .VerticalAlignment_set _ _ => ()
  | _, .Borders range => range
  | _, .Borders_LineStyle_set _ _ => ()
  | _, .Borders_Weight_set _ _ => ()
  | _, .Borders_Color_set _ _ => ()
  | _, .NumberFormat_set _ _ => ()
  | _, .Rows ws _ => ws
  | _, .Columns ws _ => ws
  | _, .Insert _ => ()
  | _, .Delete _ => ()
  | _, .RowHeight_set _ _ => ()
  | _, .ColumnWidth_set _ _ => ()
  | _, .Columns_AutoFit _ => ()
  | _, .Find _ _ => none
  | _, .FindNext _ _ => none
  | _, .Replace _ _ _ => .bool true
  | _, .Sort _ _ _ _ => ()
  | _, .Copy _ _ => ()
  | _, .Select _ => ()
  | _, .Merge _ => ()
  | _, .UnMerge _ => ()
  | _, .Paste _ => ()
  | _, .UsedRange ws => ws
  | _, .Worksheets_Add => 0
  | _, .Worksheets_Item _ => 0
  | _, .Worksheets_Count => .num 0
  | _, .Sheet_Name_set _ _ => ()
  | _, .Sheet_Delete _ => ()

/-- The match after `after` in the circular order of `cells`, located by row
and column. -/
def nextMatch (cells : List Cell) (after : Cell) : Option Cell :=
  match cells.findIdx? (fun c => c.Row == after.Row && c.Column == after.Column) with
  | some i => cells[(i + 1) % cells.length]?
  | none => none

/-- A host whose document is the list of its sheet names (the handle of a sheet
is its position), whose find protocol is circular over `cells`, which raises on
an address that is not a string, and which answers everything else by default. -/
def exampleHost (cells : List Cell) : Host (List String) where
  activeSheet := fun _ => 0
  sheets := fun names => List.range names.length
  sheetName := fun names ws => names.getD ws ""
  call := fun {α} (c : ExtCall α) names =>
    match α, c with
    | _, .Range ws (.str _) => (.ok ws, names)
    | _, .Range _ _ => (.error "invalid address", names)
    | _, .Find _ _ => (.ok cells.head?, names)
    | _, .FindNext _ after => (.ok (nextMatch cells after), names)
    | _, c => (.ok c.default, names)

/-- A host whose `FindNext` never returns `null` and never comes back to the
first match: each match is one row below the previous one. -/
def endlessHost : Host Unit where
  activeSheet := fun _ => 0
  sheets := fun _ => [0]
  sheetName := fun _ _ => "Sheet1"
  call := fun {α} (c : ExtCall α) d =>
    match α, c with
    | _, .Find _ _ => (.ok (some { Address := .undefined, Value := .undefined,
                                   Row := 1, Column := 1 }), d)
    | _, .FindNext _ after => (.ok (some { after with Row := after.Row + 1 }), d)
    | _, c => (.ok c.default, d)

/-- A cell at a position, for the examples. -/
def cellAt (row column : Int) : Cell :=
  { Address := .undefined, Value := .undefined, Row := row, Column := column }

/-- The initial state over a document. -/
def State.init (doc : σ) : State σ := { doc := doc, trace := [] }

/-- The position `(row, column)` of a cell. -/
def Cell.position (c : Cell) : Int × Int := (c.Row, c.Column)

/-- In the document `d`, the find protocol of the host is circular over the
cells `found` of the range `range` that match `searchText`: `Find` returns the
first of them (`null` when there is none) and `FindNext` the one after its
argument, wrapping from the last to the first; neither changes the document.
Nothing is asked of the host in any other document. -/
structure Circular (H : Host σ) (d : σ) (range : RangeRef) (searchText : JSVal)
    (found : List Cell) : Prop where
  find : H.call (.Find range searchText) d = (.ok found.head?, d)
  next : ∀ (i : Nat) (c : Cell), found[i]? = some c →
    H.call (.FindNext range c) d = (.ok found[(i + 1) % found.length]?, d)

/-- Two matches, at A1 and A2, for the examples. -/
def twoCells : List Cell := [cellAt 1 1, cellAt 2 1]

/-- The state after `findAllCells("x", "A1:B2")` on the active sheet of the
workbook "Sheet1" with the matches `twoCells`. -/
def afterFind : State (List String) :=
  { doc := ["Sheet1"],
    trace := [.ActiveSheet, .call (.Range 0 (.str "A1:B2")), .call (.Find 0 (.str "x")),
      .call (.FindNext 0 (cellAt 1 1)), .call (.FindNext 0 (cellAt 2 1))] }

/-- The operation each command of the command set delegates to, with its
result dropped: the call made by the corresponding case of the `switch` of
`executeFunction`.  Names outside the command set delegate to nothing. -/
def delegated (H : Host σ) (functionName : String) (params : Argv)
    (sheetName : Option String) : M σ Unit :=
  match functionName with
  | "getCellValue" => do
    let _ ← getCellValue H params.address sheetName
    pure ()
  | "setCellValue" => do
    let _ ← setCellValue H params.address params.value sheetName
    pure ()
  | "getRangeValues" => do
    let _ ← getRangeValues H params.address sheetName
    pure ()
  | "setRangeValues" => do
    let _ ← setRangeValues H params.address params.values sheetName
    pure ()
  | "setCellFont" => do
    let _ ← setCellFont H params.address params.fontOptions sheetName
    pure ()
  | "setCellBackgroundColor" => do
    let _ ← setCellBackgroundColor H params.address params.color sheetName
    pure ()
  | "setCellAlignment" => do
    let _ ← setCellAlignment H params.address params.alignOptions sheetName
    pure ()
  | "setCellBorder" => do
    let _ ← setCellBorder H params.address params.borderOptions sheetName
    pure ()
  | "mergeCells" => do
    let _ ← mergeCells H params.address sheetName
    pure ()
  | "autoFitColumns" => do
    let _ ← autoFitColumns H params.address sheetName
    pure ()
  | "insertRows" => do
    let _ ← insertRows H params.rowIndex params.count sheetName
    pure ()
  | "setRowHeight" => do
    let _ ← setRowHeight H params.rowIndex params.height sheetName
    pure ()
  | "setColumnWidth" => do
    let _ ← setColumnWidth H params.columnIndex params.width sheetName
    pure ()
  | "findCell" => do
    let _ ← findCell H params.searchText params.searchRange sheetName
    pure ()
  | "replaceInRangeWithCount" => do
    let _ ← replaceInRangeWithCount H params.searchText params.replaceText
      params.searchRange sheetName
    pure ()
  | "sortRange" => do
    let _ ← sortRange H params.address params.sortOptions sheetName
    pure ()
  | "copyPasteRange" => do
    let _ ← copyPasteRange H params.sourceAddress params.targetAddress
      (.ofName sheetName) (.ofName sheetName)
    pure ()
  | "clearRange" => do
    let _ ← clearRange H params.address sheetName
    pure ()
  | "clearRangeContents" => do
    let _ ← clearRangeContents H params.address sheetName
    pure ()
  | "getCellFormula" => do
    let _ ← getCellFormula H params.address sheetName
    pure ()
  | "setCellFormula" => do
    let _ ← setCellFormula H params.address params.formula sheetName
    pure ()
  | "setCellNumberFormat" => do
    let _ ← setCellNumberFormat H params.address params.format sheetName
    pure ()
  | "unmergeCells" => do
    let _ ← unmergeCells H params.address sheetName
    pure ()
  | "deleteRows" => do
    let _ ← deleteRows H params.rowIndex params.count sheetName
    pure ()
  | "insertColumns" => do
    let _ ← insertColumns H params.columnIndex params.count sheetName
    pure ()
  | "deleteColumns" => do
    let _ ← deleteColumns H params.columnIndex params.count sheetName
    pure ()
  | "findAllCells" => do
    let _ ← findAllCells H params.searchText params.searchRange sheetName
    pure ()
  | "copyRange" => do
    let _ ← copyRange H params.sourceAddress sheetName
    pure ()
  | "pasteToRange" => do
    let _ ← pasteToRange H params.targetAddress sheetName
    pure ()
  | "getUsedRangeData" => do
    let _ ← getUsedRangeData H sheetName
    pure ()
  | "addWorksheet" => do
    let _ ← addWorksheet H params.sheetName
    pure ()
  | "deleteWorksheet" => do
    let _ ← deleteWorksheet H params.sheetIdentifier
    pure ()
  | "worksheetExists" => do
    let _ ← worksheetExists H params.sheetName
    pure ()
  | "getWorksheetCount" => do
    let _ ← getWorksheetCount H
    pure ()
  | "getWorkbookName" => do
    let _ ← getWorkbookName H
    pure ()
  | _ => pure ()

/-- A parameter bag with nothing supplied. -/
def emptyArgv : Argv :=
  { items := .undefined, function := none, address := .undefined, value := .undefined,
    values := .undefined, fontOptions := none, color := .undefined,
    alignOptions := none, borderOptions := none, rowIndex := .undefined,
    columnIndex := .undefined, count := none, height := .undefined,
    width := .undefined, searchText := .undefined, replaceText := .undefined,
    searchRange := .undefined, sortOptions := none, sourceAddress := .undefined,
    targetAddress := .undefined, formula := .undefined, format := .undefined,
    sheetName := none, sheetIdentifier := .undefined }

/-- The parameter bag with `items = [[1, 2], [3, 4]]` and nothing else. -/
def matrixArgv : Argv :=
  { emptyArgv with
    items := .arr [.arr [.num 1, .num 2], .arr [.num 3, .num 4]] }

/-- The parameter bag with `items = [[]]` and nothing else. -/
def emptyRowArgv : Argv :=
  { emptyArgv with items := .arr [.arr []] }

/-- The properties of a font object that `setCellFont` may assign. -/
structure FontState where
  Name : JSVal
  Size : JSVal
  Bold : JSVal
  Italic : JSVal
  Color : JSVal

/-- A host with one sheet and one font object, whose document is the state of
that font: the five assignments store their value, everything else is answered
by default. -/
def fontHost : Host FontState where
  activeSheet := fun _ => 0
  sheets := fun _ => [0]
  sheetName := fun _ _ => "Sheet1"
  call := fun {α} (c : ExtCall α) d =>
    match α, c with
    | _, .Font_Name_set _ v => (.ok (), { d with Name := v })
    | _, .Font_Size_set _ v => (.ok (), { d with Size := v })
    | _, .Font_Bold_set _ v => (.ok (), { d with Bold := v })
    | _, .Font_Italic_set _ v => (.ok (), { d with Italic := v })
    | _, .Font_Color_set _ v => (.ok (), { d with Color := v })
    | _, c => (.ok c.default, d)

/-- A font in bold red Arial of size 10. -/
def redArial : FontState :=
  { Name := .str "Arial", Size := .num 10, Bold := .bool true, Italic := .bool false,
    Color := .num 255 }

/-- The bag `{bold: false, color: rgbToExcelColor(0, 0, 0)}`. -/
def blackNotBold : FontOptions :=
  { name := .undefined, size := .undefined, bold := .bool false, italic := .undefined,
    color := .num (rgbToExcelColor 0 0 0) }

/-! ## Running computations -/

theorem run_pure (a : α) (s : State σ) : (pure a : M σ α) s = (.ok a, s) := rfl

theorem run_bind (x : M σ α) (f : α → M σ β) (s : State σ) :
    (x >>= f) s = match x s with
      | (.ok a, s1) => f a s1
      | (.error e, s1) => (.error e, s1) := rfl

theorem run_bind_ok (x : M σ α) (f : α → M σ β) (s s1 : State σ) (a : α)
    (h : x s = (.ok a, s1)) : (x >>= f) s = f a s1 := by
  rw [run_bind, h]

theorem run_bind_error (x : M σ α) (f : α → M σ β) (s s1 : State σ) (e : String)
    (h : x s = (.error e, s1)) : (x >>= f) s = (.error e, s1) := by
  rw [run_bind, h]

theorem Quiet.refl (s : State σ) : Quiet s s := ⟨rfl, rfl⟩

theorem Quiet.trans {s s1 s2 : State σ} (h1 : Quiet s s1) (h2 : Quiet s1 s2) :
    Quiet s s2 :=
  ⟨h2.1.trans h1.1, h2.2.trans h1.2⟩

theorem Quiet.log (s : State σ) (e : Event) (he : e.isCall = false) :
    Quiet s (s.log e) := by
  refine ⟨rfl, ?_⟩
  simp [calls, State.log, List.filter_append, he]

theorem calls_append_call (trace : List Event) (c : ExtCall α) :
    calls (trace ++ [.call c]) = calls trace ++ [.call c] := by
  simp [calls, List.filter_append, Event.isCall]

/-! ## The sheet scan -/

theorem scan_step (H : Host σ) (test : String → Bool) (pre rest : List SheetRef)
    (ws : SheetRef) (s : State σ) (hs : H.sheets s.doc = pre ++ ws :: rest) :
    (do let sheet ← Sheets_Item H (pre.length + 1)
        let name ← Name_get H sheet
        if test name then pure (some sheet) else pure none : M σ (Option SheetRef)) s
      = (.ok (if test (H.sheetName s.doc ws) then some ws else none),
          (s.log (.Sheets_Item (pre.length + 1))).log (.Name_get ws)) := by
  have h1 : Sheets_Item H (pre.length + 1) s
      = (.ok ws, s.log (.Sheets_Item (pre.length + 1))) := by
    have hget : (pre ++ ws :: rest)[pre.length]? = some ws := by
      rw [List.getElem?_append_right (le_refl _)]; simp
    simp only [Sheets_Item, hs, Nat.add_sub_cancel, hget]
    simp
  rw [run_bind_ok _ _ _ _ _ h1]
  have h2 : Name_get H ws (s.log (.Sheets_Item (pre.length + 1)))
      = (.ok (H.sheetName s.doc ws),
          (s.log (.Sheets_Item (pre.length + 1))).log (.Name_get ws)) := rfl
  rw [run_bind_ok _ _ _ _ _ h2]
  split <;> rfl

theorem scan_rest (H : Host σ) (test : String → Bool) :
    ∀ (rest pre : List SheetRef) (s : State σ), H.sheets s.doc = pre ++ rest →
      ∃ s1 : State σ,
        forReturn (fun i => do
            let sheet ← Sheets_Item H i
            let name ← Name_get H sheet
            if test name then pure (some sheet) else pure none)
          (List.range' (pre.length + 1) rest.length) s
          = (.ok (rest.find? (fun ws => test (H.sheetName s.doc ws))), s1)
        ∧ Quiet s s1 := by
  intro rest
  induction rest with
  | nil => intro pre s _; exact ⟨s, rfl, Quiet.refl s⟩
  | cons ws rest ih =>
    intro pre s hs
    have hstep := scan_step H test pre rest ws s hs
    simp only [List.length_cons, List.range'_succ, forReturn]
    rw [run_bind_ok _ _ _ _ _ hstep]
    have hq : Quiet s ((s.log (.Sheets_Item (pre.length + 1))).log (.Name_get ws)) :=
      (Quiet.log s (.Sheets_Item (pre.length + 1)) rfl).trans
        (Quiet.log _ (.Name_get ws) rfl)
    by_cases ht : test (H.sheetName s.doc ws) = true
    · refine ⟨(s.log (.Sheets_Item (pre.length + 1))).log (.Name_get ws), ?_, hq⟩
      simp [ht, List.find?, run_pure]
    · have hs2 : H.sheets ((s.log (.Sheets_Item (pre.length + 1))).log (.Name_get ws)).doc
          = (pre ++ [ws]) ++ rest := by simpa using hs
      obtain ⟨s1, h1, hd⟩ := ih (pre ++ [ws]) _ hs2
      refine ⟨s1, ?_, hq.trans hd⟩
      simp only [List.length_append, List.length_singleton] at h1
      simp only [ht, List.find?]
      exact h1

/-- The scan over the whole sheet collection finds the first sheet, in workbook
order, whose name passes the test, and leaves the document as it was. -/
theorem scanSheets_run (H : Host σ) (test : String → Bool) (s : State σ) :
    ∃ s1 : State σ,
      scanSheets H (H.sheets s.doc).length test s
        = (.ok ((H.sheets s.doc).find? (fun ws => test (H.sheetName s.doc ws))), s1)
      ∧ Quiet s s1 := by
  have h := scan_rest H test (H.sheets s.doc) [] s (by simp)
  simpa [scanSheets] using h

theorem includes_iff (s t : String) : includes s t = true ↔ IsSubstring t s := by
  unfold includes IsSubstring
  rw [List.any_eq_true]
  constructor
  · rintro ⟨u, hu, hp⟩
    rw [List.mem_tails] at hu
    rw [List.isPrefixOf_iff_prefix] at hp
    obtain ⟨pre, hpre⟩ := hu
    obtain ⟨post, hpost⟩ := hp
    exact ⟨pre, post, by rw [hpost, hpre]⟩
  · rintro ⟨pre, post, h⟩
    refine ⟨t.data ++ post, ?_, ?_⟩
    · rw [List.mem_tails]; exact ⟨pre, h.symm⟩
    · rw [List.isPrefixOf_iff_prefix]; exact ⟨post, rfl⟩

/-- What `find?` finds is the first element passing the test. -/
theorem find?_some_first (p : α → Bool) :
    ∀ (l : List α) (a : α), l.find? p = some a →
      ∃ i : Nat, l[i]? = some a ∧ p a = true ∧
        ∀ (j : Nat) (b : α), j < i → l[j]? = some b → p b = false := by
  intro l
  induction l with
  | nil => intro a h; simp at h
  | cons x l ih =>
    intro a h
    by_cases hx : p x = true
    · have hax : x = a := by simpa [List.find?, hx] using h
      subst hax
      exact ⟨0, by simp, hx, fun j b hj _ => absurd hj (Nat.not_lt_zero j)⟩
    · have hx2 : p x = false := by simpa using hx
      have h2 : l.find? p = some a := by simpa [List.find?, hx2] using h
      obtain ⟨i, hi, hpa, hmin⟩ := ih a h2
      refine ⟨i + 1, by simpa using hi, hpa, ?_⟩
      intro j b hj hb
      cases j with
      | zero =>
        have hbx : x = b := by simpa using hb
        rw [← hbx]; exact hx2
      | succ j => exact hmin j b (by omega) (by simpa using hb)

theorem find?_none_all (p : α → Bool) (l : List α) (h : l.find? p = none) :
    ∀ a ∈ l, p a = false := by
  intro a ha
  have := List.find?_eq_none.mp h a ha
  simpa using this

theorem find?_isSome_of_mem (p : α → Bool) (l : List α) (a : α) (ha : a ∈ l)
    (hp : p a = true) : ∃ b, l.find? p = some b := by
  cases hf : l.find? p with
  | some b => exact ⟨b, rfl⟩
  | none =>
    have := find?_none_all p l hf a ha
    rw [hp] at this
    exact absurd this (by decide)

/-- The resolver on a non-empty name: exact scan first, substring scan second,
`null` last; the document is not changed. -/
theorem getWorksheetByName_run (H : Host σ) (s : State σ) (N : String) (hN : N ≠ "") :
    ∃ s1 : State σ,
      getWorksheetByName H (some N) s
        = (.ok (match (H.sheets s.doc).find? (fun ws => H.sheetName s.doc ws == N) with
            | some ws => some ws
            | none => (H.sheets s.doc).find? (fun ws => includes (H.sheetName s.doc ws) N)),
           s1)
      ∧ Quiet s s1 := by
  have hc : Sheets_Count H s = (.ok (H.sheets s.doc).length, s.log .Sheets_Count) := rfl
  obtain ⟨s1, h1, hd1⟩ := scanSheets_run H (fun name => name == N) (s.log .Sheets_Count)
  have hq1 : Quiet s s1 := (Quiet.log s .Sheets_Count rfl).trans hd1
  have hd1s : s1.doc = s.doc := hq1.1
  simp only [getWorksheetByName, if_neg hN]
  rw [run_bind_ok _ _ _ _ _ hc]
  have h1a : scanSheets H (H.sheets s.doc).length (fun name => name == N)
      (s.log .Sheets_Count)
      = (.ok ((H.sheets s.doc).find? (fun ws => H.sheetName s.doc ws == N)), s1) := h1
  rw [run_bind_ok _ _ _ _ _ h1a]
  cases hf : (H.sheets s.doc).find? (fun ws => H.sheetName s.doc ws == N) with
  | some ws => exact ⟨s1, rfl, hq1⟩
  | none =>
    obtain ⟨s2, h2, hd2⟩ := scanSheets_run H (fun name => includes name N) s1
    rw [hd1s] at h2
    refine ⟨s2, ?_, hq1.trans hd2⟩
    simp only []
    rw [run_bind_ok _ _ _ _ _ h2]
    cases (H.sheets s.doc).find? (fun ws => includes (H.sheetName s.doc ws) N) <;> rfl

theorem worksheetExists_run (H : Host σ) (s : State σ) (N : String) :
    ∃ s1 : State σ,
      worksheetExists H (some N) s
        = (.ok (match (H.sheets s.doc).find? (fun ws => some N == some (H.sheetName s.doc ws)) with
            | some _ => true
            | none =>
              match (H.sheets s.doc).find? (fun ws => includes (H.sheetName s.doc ws) N) with
              | some _ => true
              | none => false),
           s1)
      ∧ Quiet s s1 := by
  have hc : Sheets_Count H s = (.ok (H.sheets s.doc).length, s.log .Sheets_Count) := rfl
  obtain ⟨s1, h1, hd1⟩ :=
    scanSheets_run H (fun name => some N == some name) (s.log .Sheets_Count)
  have hq1 : Quiet s s1 := (Quiet.log s .Sheets_Count rfl).trans hd1
  have hd1s : s1.doc = s.doc := hq1.1
  have h1a : scanSheets H (H.sheets s.doc).length (fun name => some N == some name)
      (s.log .Sheets_Count)
      = (.ok ((H.sheets s.doc).find? (fun ws => some N == some (H.sheetName s.doc ws))),
          s1) := h1
  simp only [worksheetExists]
  rw [run_bind_ok _ _ _ _ _ hc, run_bind_ok _ _ _ _ _ h1a]
  cases hf : (H.sheets s.doc).find? (fun ws => some N == some (H.sheetName s.doc ws)) with
  | some ws => exact ⟨s1, rfl, hq1⟩
  | none =>
    obtain ⟨s2, h2, hd2⟩ := scanSheets_run H (fun name => includes name N) s1
    rw [hd1s] at h2
    refine ⟨s2, ?_, hq1.trans hd2⟩
    simp only [Option.getD_some]
    rw [run_bind_ok _ _ _ _ _ h2]
    cases (H.sheets s.doc).find? (fun ws => includes (H.sheetName s.doc ws) N) <;> rfl

/-! ## Claims on the worksheet resolver -/

/-- Claim C1.  For a non-empty name `N` that is the name of at least one sheet,
`getWorksheetByName(N)` returns the sheet at the first position `i` of the
workbook whose name equals `N`: no sheet before `i` is named `N`, whatever the
names before `i` contain.  The document is left unchanged. -/
theorem getWorksheetByName_exact_first (H : Host σ) (s : State σ) (N : String)
    (hN : N ≠ "") (hex : ∃ ws ∈ H.sheets s.doc, H.sheetName s.doc ws = N) :
    ∃ (i : Nat) (ws : SheetRef),
      (H.sheets s.doc)[i]? = some ws ∧ H.sheetName s.doc ws = N ∧
      (∀ (j : Nat) (ws1 : SheetRef), j < i → (H.sheets s.doc)[j]? = some ws1 →
        H.sheetName s.doc ws1 ≠ N) ∧
      (getWorksheetByName H (some N) s).1 = .ok (some ws) ∧
      (getWorksheetByName H (some N) s).2.doc = s.doc := by
  obtain ⟨s1, hrun, hdoc⟩ := getWorksheetByName_run H s N hN
  obtain ⟨ws0, hmem, hname⟩ := hex
  obtain ⟨ws, hfind⟩ := find?_isSome_of_mem (fun ws => H.sheetName s.doc ws == N)
    (H.sheets s.doc) ws0 hmem (by simp [hname])
  obtain ⟨i, hi, hp, hmin⟩ := find?_some_first _ _ _ hfind
  refine ⟨i, ws, hi, by simpa using hp, ?_, ?_, ?_⟩
  · intro j ws1 hj hws1
    have := hmin j ws1 hj hws1
    simpa using this
  · rw [hrun, hfind]
  · rw [hrun]; exact hdoc.1

/-- Witness for C1: in the workbook "Sheet10", "Sheet1" the name "Sheet1" is
contained in the first name and equal to the second. -/
theorem getWorksheetByName_exact_first_witness :
    ∃ (i : Nat) (ws : SheetRef),
      ((exampleHost []).sheets ["Sheet10", "Sheet1"])[i]? = some ws ∧
      (exampleHost []).sheetName ["Sheet10", "Sheet1"] ws = "Sheet1" ∧
      (∀ (j : Nat) (ws1 : SheetRef), j < i →
        ((exampleHost []).sheets ["Sheet10", "Sheet1"])[j]? = some ws1 →
        (exampleHost []).sheetName ["Sheet10", "Sheet1"] ws1 ≠ "Sheet1") ∧
      (getWorksheetByName (exampleHost []) (some "Sheet1")
        (State.init ["Sheet10", "Sheet1"])).1 = .ok (some ws) ∧
      (getWorksheetByName (exampleHost []) (some "Sheet1")
        (State.init ["Sheet10", "Sheet1"])).2.doc = ["Sheet10", "Sheet1"] :=
  getWorksheetByName_exact_first (exampleHost []) (State.init ["Sheet10", "Sheet1"])
    "Sheet1" (by decide) ⟨1, by decide, by decide⟩

/-- Claim C2.  For a non-empty name `N` that equals no sheet name but is a
substring of at least one, `getWorksheetByName(N)` returns the sheet at the
first position of the workbook whose name contains `N`. -/
theorem getWorksheetByName_substring_first (H : Host σ) (s : State σ) (N : String)
    (hN : N ≠ "") (hne : ∀ ws ∈ H.sheets s.doc, H.sheetName s.doc ws ≠ N)
    (hex : ∃ ws ∈ H.sheets s.doc, IsSubstring N (H.sheetName s.doc ws)) :
    ∃ (i : Nat) (ws : SheetRef),
      (H.sheets s.doc)[i]? = some ws ∧ IsSubstring N (H.sheetName s.doc ws) ∧
      (∀ (j : Nat) (ws1 : SheetRef), j < i → (H.sheets s.doc)[j]? = some ws1 →
        ¬ IsSubstring N (H.sheetName s.doc ws1)) ∧
      (getWorksheetByName H (some N) s).1 = .ok (some ws) ∧
      (getWorksheetByName H (some N) s).2.doc = s.doc := by
  obtain ⟨s1, hrun, hdoc⟩ := getWorksheetByName_run H s N hN
  have hnone : (H.sheets s.doc).find? (fun ws => H.sheetName s.doc ws == N) = none := by
    rw [List.find?_eq_none]
    intro ws hws
    simpa using hne ws hws
  obtain ⟨ws0, hmem, hsub⟩ := hex
  obtain ⟨ws, hfind⟩ := find?_isSome_of_mem (fun ws => includes (H.sheetName s.doc ws) N)
    (H.sheets s.doc) ws0 hmem ((includes_iff _ _).mpr hsub)
  obtain ⟨i, hi, hp, hmin⟩ := find?_some_first _ _ _ hfind
  refine ⟨i, ws, hi, (includes_iff _ _).mp hp, ?_, ?_, ?_⟩
  · intro j ws1 hj hws1 hsub1
    have h1 := hmin j ws1 hj hws1
    have h2 := (includes_iff _ _).mpr hsub1
    simp only [] at h1
    rw [h2] at h1
    exact absurd h1 (by decide)
  · rw [hrun, hnone, hfind]
  · rw [hrun]; exact hdoc.1

/-- Witness for C2: in the workbook "Data", "Sheet10", "Sheet11" the name
"Sheet1" equals no name and is contained in the second and the third. -/
theorem getWorksheetByName_substring_first_witness :
    ∃ (i : Nat) (ws : SheetRef),
      ((exampleHost []).sheets ["Data", "Sheet10", "Sheet11"])[i]? = some ws ∧
      IsSubstring "Sheet1" ((exampleHost []).sheetName ["Data", "Sheet10", "Sheet11"] ws) ∧
      (∀ (j : Nat) (ws1 : SheetRef), j < i →
        ((exampleHost []).sheets ["Data", "Sheet10", "Sheet11"])[j]? = some ws1 →
        ¬ IsSubstring "Sheet1"
          ((exampleHost []).sheetName ["Data", "Sheet10", "Sheet11"] ws1)) ∧
      (getWorksheetByName (exampleHost []) (some "Sheet1")
        (State.init ["Data", "Sheet10", "Sheet11"])).1 = .ok (some ws) ∧
      (getWorksheetByName (exampleHost []) (some "Sheet1")
        (State.init ["Data", "Sheet10", "Sheet11"])).2.doc
        = ["Data", "Sheet10", "Sheet11"] :=
  getWorksheetByName_substring_first (exampleHost [])
    (State.init ["Data", "Sheet10", "Sheet11"]) "Sheet1" (by decide) (by decide)
    ⟨1, by decide, (includes_iff _ _).mp (by decide)⟩

/-- Claim C3.  For a non-empty name `N` that is a substring of no sheet name,
`getWorksheetByName(N)` returns `null` and `worksheetExists(N)` returns
`false`; neither changes the document. -/
theorem getWorksheetByName_no_match (H : Host σ) (s : State σ) (N : String)
    (hN : N ≠ "") (hno : ∀ ws ∈ H.sheets s.doc, ¬ IsSubstring N (H.sheetName s.doc ws)) :
    (getWorksheetByName H (some N) s).1 = .ok none ∧
    (getWorksheetByName H (some N) s).2.doc = s.doc ∧
    (worksheetExists H (some N) s).1 = .ok false ∧
    (worksheetExists H (some N) s).2.doc = s.doc := by
  have hfuzzy : (H.sheets s.doc).find? (fun ws => includes (H.sheetName s.doc ws) N)
      = none := by
    rw [List.find?_eq_none]
    intro ws hws hinc
    exact hno ws hws ((includes_iff _ _).mp hinc)
  have hneq : ∀ ws ∈ H.sheets s.doc, H.sheetName s.doc ws ≠ N := by
    intro ws hws heq
    exact hno ws hws ⟨[], [], by simp [heq]⟩
  have hexact : (H.sheets s.doc).find? (fun ws => H.sheetName s.doc ws == N) = none := by
    rw [List.find?_eq_none]
    intro ws hws
    simpa using hneq ws hws
  have hexact2 : (H.sheets s.doc).find? (fun ws => some N == some (H.sheetName s.doc ws))
      = none := by
    rw [List.find?_eq_none]
    intro ws hws
    have := hneq ws hws
    simpa using fun h => this h.symm
  obtain ⟨s1, hrun, hdoc⟩ := getWorksheetByName_run H s N hN
  obtain ⟨s2, hrun2, hdoc2⟩ := worksheetExists_run H s N
  rw [hrun, hrun2, hexact, hexact2, hfuzzy]
  exact ⟨rfl, hdoc.1, rfl, hdoc2.1⟩

/-- Witness for C3: "Report" is contained in none of the names "Data",
"Sheet1". -/
theorem getWorksheetByName_no_match_witness :
    (getWorksheetByName (exampleHost []) (some "Report")
      (State.init ["Data", "Sheet1"])).1 = .ok none ∧
    (getWorksheetByName (exampleHost []) (some "Report")
      (State.init ["Data", "Sheet1"])).2.doc = ["Data", "Sheet1"] ∧
    (worksheetExists (exampleHost []) (some "Report")
      (State.init ["Data", "Sheet1"])).1 = .ok false ∧
    (worksheetExists (exampleHost []) (some "Report")
      (State.init ["Data", "Sheet1"])).2.doc = ["Data", "Sheet1"] :=
  getWorksheetByName_no_match (exampleHost []) (State.init ["Data", "Sheet1"])
    "Report" (by decide)
    (fun ws hws hsub => absurd ((includes_iff _ _).mpr hsub) (by
      have hs : (exampleHost []).sheets (State.init ["Data", "Sheet1"]).doc = [0, 1] := rfl
      rw [hs] at hws
      have h2 : ws = 0 ∨ ws = 1 := by simpa using hws
      rcases h2 with rfl | rfl <;> decide))

/-! ## Resolution makes no host call -/

theorem replaceCalls_eq_calls (trace : List Event) :
    replaceCalls trace = (calls trace).countP Event.isReplace := by
  unfold replaceCalls calls
  rw [List.countP_filter]
  congr 1
  funext e
  cases e with
  | call c => simp [Event.isCall]
  | _ => simp [Event.isReplace]

theorem replaceCalls_of_calls {t1 t2 : List Event} (h : calls t1 = calls t2) :
    replaceCalls t1 = replaceCalls t2 := by
  rw [replaceCalls_eq_calls, replaceCalls_eq_calls, h]

theorem replaceCalls_append (trace : List Event) (e : Event) :
    replaceCalls (trace ++ [e]) = replaceCalls trace + (if e.isReplace then 1 else 0) := by
  unfold replaceCalls
  rw [List.countP_append]
  cases h : e.isReplace <;> simp [List.countP_cons, h]

/-- The resolver always returns, and only reads the sheet collection. -/
theorem getWorksheetByName_total (H : Host σ) (sheetName : Option String)
    (s : State σ) :
    ∃ (r : Option SheetRef) (s1 : State σ),
      getWorksheetByName H sheetName s = (.ok r, s1) ∧ Quiet s s1 := by
  cases sheetName with
  | none => exact ⟨_, _, rfl, Quiet.log s .ActiveSheet rfl⟩
  | some N =>
    by_cases hN : N = ""
    · subst hN
      exact ⟨_, _, rfl, Quiet.log s .ActiveSheet rfl⟩
    · obtain ⟨s1, h, hq⟩ := getWorksheetByName_run H s N hN
      exact ⟨_, s1, h, hq⟩

/-- The range accessor either fails on an unresolved name, without any host
call, or makes exactly one host call, `Range(address)` on the sheet it resolved,
after reads of the sheet collection only. -/
theorem getRange_run (H : Host σ) (address : JSVal) (arg : SheetArg) (s : State σ) :
    ∃ s1 : State σ, Quiet s s1 ∧
      ((∃ name : String, arg = .name name ∧ name ≠ "" ∧
          getWorksheetByName H (some name) s = (.ok none, s1) ∧
          getRange H address arg s = (.error (worksheetNotFound ++ name), s1)) ∨
       (∃ ws : SheetRef, getRange H address arg s = ext H (.Range ws address) s1)) := by
  cases arg with
  | absent =>
    exact ⟨s.log .ActiveSheet, Quiet.log s .ActiveSheet rfl, Or.inr ⟨_, rfl⟩⟩
  | sheet ws => exact ⟨s, Quiet.refl s, Or.inr ⟨ws, rfl⟩⟩
  | name N =>
    by_cases hN : N = ""
    · subst hN
      exact ⟨s.log .ActiveSheet, Quiet.log s .ActiveSheet rfl, Or.inr ⟨_, rfl⟩⟩
    · obtain ⟨r, s1, h, hq⟩ := getWorksheetByName_total H (some N) s
      refine ⟨s1, hq, ?_⟩
      cases r with
      | none =>
        refine Or.inl ⟨N, rfl, hN, h, ?_⟩
        simp only [getRange, if_neg hN]
        rw [run_bind, run_bind_ok _ _ _ _ _ h]
        rfl
      | some ws =>
        refine Or.inr ⟨ws, ?_⟩
        simp only [getRange, if_neg hN]
        rw [run_bind, run_bind_ok _ _ _ _ _ h]

/-- A successful range access adds exactly the call `Range(address)` to the host
calls of the trace. -/
theorem getRange_ok (H : Host σ) (address : JSVal) (arg : SheetArg) (s s2 : State σ)
    (range : RangeRef) (h : getRange H address arg s = (.ok range, s2)) :
    ∃ ws : SheetRef, calls s2.trace = calls s.trace ++ [.call (.Range ws address)] ∧
      ∃ s1 : State σ, Quiet s s1 ∧ H.call (.Range ws address) s1.doc = (.ok range, s2.doc) := by
  obtain ⟨s1, hq, hcase⟩ := getRange_run H address arg s
  rcases hcase with ⟨name, _, _, _, herr⟩ | ⟨ws, hrun⟩
  · rw [herr] at h; cases h
  · rw [hrun] at h
    simp only [ext, Prod.mk.injEq] at h
    obtain ⟨h1, h2⟩ := h
    subst h2
    refine ⟨ws, ?_, s1, hq, ?_⟩
    · simp only []
      rw [calls_append_call, hq.2]
    · exact Prod.ext h1 rfl

/-- A range access never invokes `Replace`. -/
theorem getRange_replaceCalls (H : Host σ) (address : JSVal) (arg : SheetArg)
    (s : State σ) :
    replaceCalls (getRange H address arg s).2.trace = replaceCalls s.trace := by
  obtain ⟨s1, hq, hcase⟩ := getRange_run H address arg s
  rcases hcase with ⟨name, _, _, _, herr⟩ | ⟨ws, hrun⟩
  · rw [herr]; exact replaceCalls_of_calls hq.2
  · rw [hrun]
    simp only [ext]
    rw [replaceCalls_append]
    simpa [Event.isReplace] using replaceCalls_of_calls hq.2

/-! ## The find loop -/

theorem ext_replaceCalls_findNext (range : RangeRef) (c : Cell) (s : State σ) :
    replaceCalls (s.trace ++ [Event.call (ExtCall.FindNext range c)])
      = replaceCalls s.trace := by
  rw [replaceCalls_append]; rfl

/-- For every host the loop invokes no `Replace`, and what it returns has at
most `maxIterations + 1 - count` elements more than `result` (one more when
`count` is already beyond the cap). -/
theorem findLoop_general (H : Host σ) (push : Cell → β) (range : RangeRef)
    (r0 c0 : Int) :
    ∀ (n count : Nat) (c : Cell) (result : List β) (s : State σ),
      maxIterations + 1 - count ≤ n →
      replaceCalls (findLoop H push range r0 c0 c count result s).2.trace
        = replaceCalls s.trace ∧
      ∀ l, (findLoop H push range r0 c0 c count result s).1 = .ok l →
        l.length ≤ result.length + max 1 (maxIterations + 1 - count) := by
  intro n
  induction n with
  | zero =>
    intro count c result s hn
    rw [findLoop]
    simp only []
    rcases hcall : H.call (.FindNext range c) s.doc with ⟨res0, d⟩
    cases res0 with
    | error e =>
      have hstep : ext H (.FindNext range c) s
          = (.error e, { doc := d, trace := s.trace ++ [.call (.FindNext range c)] }) := by
        simp only [ext, hcall]
      rw [run_bind_error _ _ _ _ _ hstep]
      exact ⟨ext_replaceCalls_findNext range c s, fun l hl => by cases hl⟩
    | ok next =>
      have hstep : ext H (.FindNext range c) s
          = (.ok next, { doc := d, trace := s.trace ++ [.call (.FindNext range c)] }) := by
        simp only [ext, hcall]
      rw [run_bind_ok _ _ _ _ _ hstep, dif_pos (by omega)]
      refine ⟨ext_replaceCalls_findNext range c s, fun l hl => ?_⟩
      have : l = result ++ [push c] := by
        simp only [run_pure, Except.ok.injEq] at hl; exact hl.symm
      subst this
      simp
  | succ n ih =>
    intro count c result s hn
    rw [findLoop]
    simp only []
    rcases hcall : H.call (.FindNext range c) s.doc with ⟨res0, d⟩
    cases res0 with
    | error e =>
      have hstep : ext H (.FindNext range c) s
          = (.error e, { doc := d, trace := s.trace ++ [.call (.FindNext range c)] }) := by
        simp only [ext, hcall]
      rw [run_bind_error _ _ _ _ _ hstep]
      exact ⟨ext_replaceCalls_findNext range c s, fun l hl => by cases hl⟩
    | ok next =>
      have hstep : ext H (.FindNext range c) s
          = (.ok next, { doc := d, trace := s.trace ++ [.call (.FindNext range c)] }) := by
        simp only [ext, hcall]
      rw [run_bind_ok _ _ _ _ _ hstep]
      have hdone : ∀ l : List β, ((pure (result ++ [push c]) : M σ (List β))
          { doc := d, trace := s.trace ++ [.call (.FindNext range c)] }).1 = .ok l →
          l.length ≤ result.length + max 1 (maxIterations + 1 - count) := by
        intro l hl
        have : l = result ++ [push c] := by
          simp only [run_pure, Except.ok.injEq] at hl; exact hl.symm
        subst this
        simp
      by_cases hcap : count + 1 > maxIterations
      · rw [dif_pos hcap]
        exact ⟨ext_replaceCalls_findNext range c s, hdone⟩
      · rw [dif_neg hcap]
        cases next with
        | none => exact ⟨ext_replaceCalls_findNext range c s, hdone⟩
        | some cell =>
          simp only []
          by_cases hback : cell.Row = r0 ∧ cell.Column = c0
          · rw [if_pos hback]
            exact ⟨ext_replaceCalls_findNext range c s, hdone⟩
          · rw [if_neg hback]
            obtain ⟨h1, h2⟩ := ih (count + 1) cell (result ++ [push c])
              { doc := d, trace := s.trace ++ [.call (.FindNext range c)] } (by omega)
            refine ⟨h1.trans (ext_replaceCalls_findNext range c s), fun l hl => ?_⟩
            have := h2 l hl
            simp only [List.length_append, List.length_singleton] at this
            have hm : max 1 (maxIterations + 1 - (count + 1)) = maxIterations - count := by
              rw [max_eq_right (by omega)]; omega
            have hm2 : max 1 (maxIterations + 1 - count) = maxIterations + 1 - count := by
              rw [max_eq_right (by omega)]
            omega

theorem findLoop_endless (push : Cell → β) (range : RangeRef) :
    ∀ (n count : Nat) (c : Cell) (result : List β) (s : State Unit),
      count + n = maxIterations → 1 ≤ c.Row →
      ∃ (r : List β) (s1 : State Unit),
        findLoop endlessHost push range 1 1 c count result s = (.ok r, s1) ∧
        r.length = result.length + (n + 1) := by
  intro n
  induction n with
  | zero =>
    intro count c result s hcount _
    have hstep : ext endlessHost (.FindNext range c) s
        = (.ok (some { c with Row := c.Row + 1 }),
            { doc := s.doc, trace := s.trace ++ [.call (.FindNext range c)] }) := rfl
    rw [findLoop]
    simp only []
    rw [run_bind_ok _ _ _ _ _ hstep, dif_pos (by omega)]
    exact ⟨_, _, rfl, by simp⟩
  | succ n ih =>
    intro count c result s hcount hrow
    have hstep : ext endlessHost (.FindNext range c) s
        = (.ok (some { c with Row := c.Row + 1 }),
            { doc := s.doc, trace := s.trace ++ [.call (.FindNext range c)] }) := rfl
    rw [findLoop]
    simp only []
    rw [run_bind_ok _ _ _ _ _ hstep, dif_neg (by omega)]
    simp only []
    rw [if_neg (by intro h; have := h.1; omega)]
    obtain ⟨r, s1, hr, hlen⟩ := ih (count + 1) { c with Row := c.Row + 1 }
      (result ++ [push c]) _ (by omega) (by simp only []; omega)
    refine ⟨r, s1, hr, ?_⟩
    rw [hlen]; simp; omega

/-- Under a circular protocol with pairwise distinct positions the loop,
entered at the match of index `i` with the matches before it collected, returns
all matches in protocol order. -/
theorem findLoop_circular (H : Host σ) (push : Cell → β) (d : σ) (range : RangeRef)
    (T : JSVal) (found : List Cell) (hc : Circular H d range T found)
    (hdist : (found.map Cell.position).Nodup) (hk : found.length ≤ maxIterations)
    (first : Cell) (h0 : found[0]? = some first) :
    ∀ (n i : Nat) (c : Cell) (s : State σ), s.doc = d → i + n + 1 = found.length →
      found[i]? = some c →
      ∃ s1 : State σ,
        findLoop H push range first.Row first.Column c i ((found.take i).map push) s
          = (.ok (found.map push), s1) ∧ s1.doc = d := by
  intro n
  induction n with
  | zero =>
    intro i c s hsd hlen hi
    have hnext : found[(i + 1) % found.length]? = some first := by
      rw [show i + 1 = found.length by omega, Nat.mod_self]; exact h0
    have hstep : ext H (.FindNext range c) s
        = (.ok (some first),
            { doc := d, trace := s.trace ++ [.call (.FindNext range c)] }) := by
      simp only [ext, hsd, hc.next i c hi, hnext]
    rw [findLoop]
    simp only []
    rw [run_bind_ok _ _ _ _ _ hstep, dif_neg (by omega)]
    simp only [and_self, if_true]
    refine ⟨{ doc := d, trace := s.trace ++ [.call (.FindNext range c)] }, ?_, rfl⟩
    have htake : List.take i found ++ [c] = found := by
      have h1 := (List.take_succ (l := found) (n := i)).symm
      rw [hi] at h1
      rw [show i + 1 = found.length by omega, List.take_length] at h1
      simpa using h1
    simp only [run_pure]
    rw [← List.map_singleton, ← List.map_append, htake]
  | succ n ih =>
    intro i c s hsd hlen hi
    have hlt : i + 1 < found.length := by omega
    have hnext : found[(i + 1) % found.length]? = some (found[i + 1]) := by
      rw [Nat.mod_eq_of_lt hlt]; exact List.getElem?_eq_getElem hlt
    have hstep : ext H (.FindNext range c) s
        = (.ok (some (found[i + 1])),
            { doc := d, trace := s.trace ++ [.call (.FindNext range c)] }) := by
      simp only [ext, hsd, hc.next i c hi, hnext]
    have hne : ¬ ((found[i + 1]).Row = first.Row ∧ (found[i + 1]).Column = first.Column) := by
      intro hback
      have hnd := List.nodup_iff_getElem?_ne_getElem?.mp hdist 0 (i + 1) (by omega)
        (by simpa using hlt)
      apply hnd
      rw [List.getElem?_map, List.getElem?_map, h0, List.getElem?_eq_getElem hlt]
      simp only [Option.map_some', Cell.position]
      rw [hback.1, hback.2]
    rw [findLoop]
    simp only []
    rw [run_bind_ok _ _ _ _ _ hstep, dif_neg (by omega)]
    simp only []
    rw [if_neg hne]
    have htake : List.map push (List.take i found) ++ [push c]
        = List.map push (List.take (i + 1) found) := by
      rw [List.take_succ, hi]; simp
    rw [htake]
    obtain ⟨s1, h1, hd⟩ := ih (i + 1) (found[i + 1])
      { doc := d, trace := s.trace ++ [.call (.FindNext range c)] } rfl (by omega)
      (List.getElem?_eq_getElem hlt)
    exact ⟨s1, h1, hd⟩

/-! ## Claims on find and replace -/

/-- Claim C4.  When the range resolves and, in the document at hand (the one
the range was resolved in), the find protocol is circular over the `k` matching
cells `found`, whose positions are pairwise distinct, with `k < 10000`,
`findAllCells` returns exactly the list `found`: those `k` cells, each once, in
protocol order; the call terminates, being a total function. -/
theorem findAllCells_circular (H : Host σ) (T searchRange : JSVal)
    (sheetName : Option String) (s s1 : State σ) (range : RangeRef)
    (found : List Cell)
    (hrange : getRange H searchRange (.ofName sheetName) s = (.ok range, s1))
    (hc : Circular H s1.doc range T found)
    (hdist : (found.map Cell.position).Nodup)
    (hk : found.length < maxIterations) :
    ∃ s2 : State σ,
      findAllCells H T searchRange sheetName s = (.ok found, s2) ∧
      s2.doc = s1.doc := by
  have hfind : ext H (.Find range T) s1
      = (.ok found.head?, { doc := s1.doc, trace := s1.trace ++ [.call (.Find range T)] }) := by
    simp only [ext, hc.find]
  simp only [findAllCells]
  rw [run_bind_ok _ _ _ _ _ hrange, run_bind_ok _ _ _ _ _ hfind]
  cases found with
  | nil => exact ⟨_, rfl, rfl⟩
  | cons first rest =>
    obtain ⟨s2, h2, hd⟩ := findLoop_circular H id s1.doc range T (first :: rest) hc hdist
      (Nat.le_of_lt hk) first (by simp) rest.length 0 first
      { doc := s1.doc, trace := s1.trace ++ [.call (.Find range T)] } rfl (by simp)
      (by simp)
    refine ⟨s2, ?_, hd⟩
    simpa using h2

/-- Witness for C4: two matches, at A1 and A2, on the active sheet. -/
theorem findAllCells_circular_witness :
    ∃ s2 : State (List String),
      findAllCells (exampleHost [cellAt 1 1, cellAt 2 1]) (.str "x") (.str "A1:B2") none
        (State.init ["Sheet1"]) = (.ok [cellAt 1 1, cellAt 2 1], s2) ∧
      s2.doc = ["Sheet1"] :=
  findAllCells_circular (exampleHost [cellAt 1 1, cellAt 2 1]) (.str "x") (.str "A1:B2")
    none (State.init ["Sheet1"])
    { doc := ["Sheet1"],
      trace := [.ActiveSheet, .call (.Range 0 (.str "A1:B2"))] }
    0 [cellAt 1 1, cellAt 2 1] rfl
    { find := rfl
      next := fun i c hi => by
        match i, hi with
        | 0, hi =>
          have hc : cellAt 1 1 = c := by simpa using hi
          subst hc; rfl
        | 1, hi =>
          have hc : cellAt 2 1 = c := by simpa using hi
          subst hc; rfl
        | k + 2, hi => simp at hi }
    (by decide) (by decide)

/-- For every host, `findAllCells` invokes no `Replace` and returns at most
`maxIterations + 1` cells. -/
theorem findAllCells_general (H : Host σ) (T searchRange : JSVal)
    (sheetName : Option String) (s : State σ) :
    replaceCalls (findAllCells H T searchRange sheetName s).2.trace = replaceCalls s.trace ∧
    ∀ l, (findAllCells H T searchRange sheetName s).1 = .ok l →
      l.length ≤ maxIterations + 1 := by
  have hr := getRange_replaceCalls H searchRange (.ofName sheetName) s
  simp only [findAllCells]
  rcases hrange : getRange H searchRange (.ofName sheetName) s with ⟨res, s1⟩
  rw [hrange] at hr
  cases res with
  | error e =>
    rw [run_bind_error _ _ _ _ _ hrange]
    exact ⟨hr, fun l hl => by cases hl⟩
  | ok range =>
    rw [run_bind_ok _ _ _ _ _ hrange]
    have hr2 : replaceCalls (s1.trace ++ [Event.call (ExtCall.Find range T)])
        = replaceCalls s.trace := by
      rw [replaceCalls_append]; exact hr
    rcases hcall : H.call (.Find range T) s1.doc with ⟨res0, d⟩
    cases res0 with
    | error e =>
      have hstep : ext H (.Find range T) s1
          = (.error e, { doc := d, trace := s1.trace ++ [.call (.Find range T)] }) := by
        simp only [ext, hcall]
      rw [run_bind_error _ _ _ _ _ hstep]
      exact ⟨hr2, fun l hl => by cases hl⟩
    | ok firstCell =>
      have hstep : ext H (.Find range T) s1
          = (.ok firstCell, { doc := d, trace := s1.trace ++ [.call (.Find range T)] }) := by
        simp only [ext, hcall]
      rw [run_bind_ok _ _ _ _ _ hstep]
      cases firstCell with
      | none =>
        refine ⟨hr2, fun l hl => ?_⟩
        have : l = [] := by
          simp only [run_pure, Except.ok.injEq] at hl; exact hl.symm
        subst this; simp
      | some firstCell =>
        obtain ⟨h1, h2⟩ := findLoop_general H id range firstCell.Row firstCell.Column
          (maxIterations + 1) 0 firstCell []
          { doc := d, trace := s1.trace ++ [.call (.Find range T)] } (by omega)
        refine ⟨h1.trans hr2, fun l hl => ?_⟩
        have := h2 l hl
        simpa using this

/-- Claim C5, the code at an input that breaks the bound: with a host whose
`FindNext` never returns `null` and never comes back to the first match, both
`findAllCells` and `findCell` return, and what they return has 10,001 elements,
one more than `maxIterations`. -/
theorem find_endless_length :
    (∃ (r : List Cell) (s1 : State Unit),
      findAllCells endlessHost (.str "x") (.str "A:A") none (State.init ()) = (.ok r, s1) ∧
      r.length = 10001) ∧
    (∃ (r : List CellMatch) (s1 : State Unit),
      findCell endlessHost (.str "x") (.str "A:A") none (State.init ()) = (.ok r, s1) ∧
      r.length = 10001) := by
  have hrange : getRange endlessHost (.str "A:A") (.ofName none) (State.init ())
      = (.ok 0, { doc := (), trace := [.ActiveSheet, .call (.Range 0 (.str "A:A"))] }) := rfl
  have hfind : ext endlessHost (.Find 0 (.str "x"))
      { doc := (), trace := [.ActiveSheet, .call (.Range 0 (.str "A:A"))] }
      = (.ok (some (cellAt 1 1)),
          { doc := (), trace := [.ActiveSheet, .call (.Range 0 (.str "A:A")),
              .call (.Find 0 (.str "x"))] }) := rfl
  constructor
  · obtain ⟨r, s1, h, hlen⟩ := findLoop_endless id 0 maxIterations 0 (cellAt 1 1) []
      { doc := (), trace := [.ActiveSheet, .call (.Range 0 (.str "A:A")),
          .call (.Find 0 (.str "x"))] } (by simp) (by decide)
    refine ⟨r, s1, ?_, by simpa [maxIterations] using hlen⟩
    simp only [findAllCells]
    rw [run_bind_ok _ _ _ _ _ hrange, run_bind_ok _ _ _ _ _ hfind]
    exact h
  · obtain ⟨r, s1, h, hlen⟩ := findLoop_endless CellMatch.ofCell 0 maxIterations 0
      (cellAt 1 1) []
      { doc := (), trace := [.ActiveSheet, .call (.Range 0 (.str "A:A")),
          .call (.Find 0 (.str "x"))] } (by simp) (by decide)
    refine ⟨r, s1, ?_, by simpa [maxIterations] using hlen⟩
    simp only [findCell]
    rw [run_bind_ok _ _ _ _ _ hrange, run_bind_ok _ _ _ _ _ hfind]
    exact h

theorem findAllCells_twoCells :
    findAllCells (exampleHost twoCells) (.str "x") (.str "A1:B2") none
      (State.init ["Sheet1"]) = (.ok twoCells, afterFind) := by
  have hrange : getRange (exampleHost twoCells) (.str "A1:B2") (.ofName none)
      (State.init ["Sheet1"])
      = (.ok 0, { doc := ["Sheet1"],
                  trace := [.ActiveSheet, .call (.Range 0 (.str "A1:B2"))] }) := rfl
  have hfind : ext (exampleHost twoCells) (.Find 0 (.str "x"))
      { doc := ["Sheet1"], trace := [.ActiveSheet, .call (.Range 0 (.str "A1:B2"))] }
      = (.ok (some (cellAt 1 1)),
          { doc := ["Sheet1"],
            trace := [.ActiveSheet, .call (.Range 0 (.str "A1:B2")),
              .call (.Find 0 (.str "x"))] }) := rfl
  have hnext1 : ext (exampleHost twoCells) (.FindNext 0 (cellAt 1 1))
      { doc := ["Sheet1"],
        trace := [.ActiveSheet, .call (.Range 0 (.str "A1:B2")), .call (.Find 0 (.str "x"))] }
      = (.ok (some (cellAt 2 1)),
          { doc := ["Sheet1"],
            trace := [.ActiveSheet, .call (.Range 0 (.str "A1:B2")),
              .call (.Find 0 (.str "x")), .call (.FindNext 0 (cellAt 1 1))] }) := rfl
  have hnext2 : ext (exampleHost twoCells) (.FindNext 0 (cellAt 2 1))
      { doc := ["Sheet1"],
        trace := [.ActiveSheet, .call (.Range 0 (.str "A1:B2")),
          .call (.Find 0 (.str "x")), .call (.FindNext 0 (cellAt 1 1))] }
      = (.ok (some (cellAt 1 1)), afterFind) := rfl
  simp only [findAllCells]
  rw [run_bind_ok _ _ _ _ _ hrange, run_bind_ok _ _ _ _ _ hfind]
  simp only []
  rw [findLoop]
  simp only []
  rw [run_bind_ok _ _ _ _ _ hnext1, dif_neg (by decide)]
  simp only []
  rw [if_neg (by decide)]
  rw [findLoop]
  simp only []
  rw [run_bind_ok _ _ _ _ _ hnext2, dif_neg (by decide)]
  simp only []
  rw [if_pos (by decide)]
  rfl

/-- Claim C6.  Whenever `findAllCells` collects the cells `cells` for a search
text, range and sheet: the collection pass invokes no `Replace`; with no cell
collected `replaceInRangeWithCount` returns 0 in the very state the collection
pass ended in (no further access, the document unchanged); with at least one
cell collected, once the range resolves again and `Replace` succeeds, it returns
the number of cells after that one `Replace` on the range, and `Replace` is
invoked exactly once as soon as the range resolves again, whether or not it
raises; and whatever number it returns is the number of cells collected, with
exactly one `Replace` invoked when that number is positive and none when it
is 0. -/
theorem replaceInRangeWithCount_count (H : Host σ) (T R searchRange : JSVal)
    (sheetName : Option String) (s sf : State σ) (cells : List Cell)
    (hfind : findAllCells H T searchRange sheetName s = (.ok cells, sf)) :
    replaceCalls sf.trace = replaceCalls s.trace ∧
    (cells.length = 0 →
      replaceInRangeWithCount H T R searchRange sheetName s = (.ok 0, sf)) ∧
    (0 < cells.length → ∀ (range : RangeRef) (s2 : State σ) (v : JSVal) (d3 : σ),
      getRange H searchRange (.ofName sheetName) sf = (.ok range, s2) →
      H.call (.Replace range T R) s2.doc = (.ok v, d3) →
      replaceInRangeWithCount H T R searchRange sheetName s
        = (.ok cells.length,
            { doc := d3, trace := s2.trace ++ [.call (.Replace range T R)] })) ∧
    (0 < cells.length → ∀ (range : RangeRef) (s2 : State σ),
      getRange H searchRange (.ofName sheetName) sf = (.ok range, s2) →
      replaceCalls (replaceInRangeWithCount H T R searchRange sheetName s).2.trace
        = replaceCalls s.trace + 1) ∧
    (∀ (n : Nat) (s1 : State σ),
      replaceInRangeWithCount H T R searchRange sheetName s = (.ok n, s1) →
      n = cells.length ∧
      replaceCalls s1.trace = replaceCalls s.trace + (if 0 < n then 1 else 0)) := by
  have hquiet : replaceCalls sf.trace = replaceCalls s.trace := by
    have := (findAllCells_general H T searchRange sheetName s).1
    rwa [hfind] at this
  have hunfold : replaceInRangeWithCount H T R searchRange sheetName s
      = (if cells.length > 0 then
          (do let range ← getRange H searchRange (.ofName sheetName)
              let _ ← ext H (.Replace range T R)
              pure cells.length : M σ Nat)
         else pure cells.length) sf := by
    simp only [replaceInRangeWithCount]
    rw [run_bind_ok _ _ _ _ _ hfind]
  refine ⟨hquiet, ?_, ?_, ?_, ?_⟩
  · intro h0
    rw [hunfold, if_neg (by omega), h0]
    rfl
  · intro hpos range s2 v d3 hrange hcall
    have hrep : ext H (.Replace range T R) s2
        = (.ok v, { doc := d3, trace := s2.trace ++ [.call (.Replace range T R)] }) := by
      simp only [ext, hcall]
    rw [hunfold, if_pos hpos, run_bind_ok _ _ _ _ _ hrange, run_bind_ok _ _ _ _ _ hrep]
    rfl
  · intro hpos range s2 hrange
    have hgr := getRange_replaceCalls H searchRange (.ofName sheetName) sf
    rw [hrange] at hgr
    have hone : replaceCalls (s2.trace ++ [Event.call (ExtCall.Replace range T R)])
        = replaceCalls s.trace + 1 := by
      rw [replaceCalls_append, hgr, hquiet]
      rfl
    rw [hunfold, if_pos hpos, run_bind_ok _ _ _ _ _ hrange]
    rcases hcall : H.call (.Replace range T R) s2.doc with ⟨res0, d3⟩
    cases res0 with
    | error e =>
      have hrep : ext H (.Replace range T R) s2
          = (.error e,
              { doc := d3, trace := s2.trace ++ [.call (.Replace range T R)] }) := by
        simp only [ext, hcall]
      rw [run_bind_error _ _ _ _ _ hrep]
      exact hone
    | ok v =>
      have hrep : ext H (.Replace range T R) s2
          = (.ok v,
              { doc := d3, trace := s2.trace ++ [.call (.Replace range T R)] }) := by
        simp only [ext, hcall]
      rw [run_bind_ok _ _ _ _ _ hrep]
      exact hone
  · intro n s1 hret
    rw [hunfold] at hret
    by_cases hpos : cells.length > 0
    · rw [if_pos hpos] at hret
      have hgr := getRange_replaceCalls H searchRange (.ofName sheetName) sf
      rcases hrange : getRange H searchRange (.ofName sheetName) sf with ⟨res, s2⟩
      rw [hrange] at hgr
      cases res with
      | error e =>
        rw [run_bind_error _ _ _ _ _ hrange] at hret
        cases hret
      | ok range =>
        rw [run_bind_ok _ _ _ _ _ hrange] at hret
        rcases hcall : H.call (.Replace range T R) s2.doc with ⟨res0, d3⟩
        cases res0 with
        | error e =>
          have hrep : ext H (.Replace range T R) s2
              = (.error e,
                  { doc := d3, trace := s2.trace ++ [.call (.Replace range T R)] }) := by
            simp only [ext, hcall]
          rw [run_bind_error _ _ _ _ _ hrep] at hret
          cases hret
        | ok v =>
          have hrep : ext H (.Replace range T R) s2
              = (.ok v,
                  { doc := d3, trace := s2.trace ++ [.call (.Replace range T R)] }) := by
            simp only [ext, hcall]
          rw [run_bind_ok _ _ _ _ _ hrep] at hret
          simp only [run_pure, Prod.mk.injEq, Except.ok.injEq] at hret
          obtain ⟨hn, hs1⟩ := hret
          subst hn
          subst hs1
          refine ⟨rfl, ?_⟩
          simp only []
          rw [replaceCalls_append, hgr, hquiet, if_pos hpos]
          rfl
    · rw [if_neg hpos] at hret
      simp only [run_pure, Prod.mk.injEq, Except.ok.injEq] at hret
      obtain ⟨hn, hs1⟩ := hret
      subst hn
      subst hs1
      refine ⟨rfl, ?_⟩
      rw [hquiet, if_neg (by omega)]
      rfl

/-- Witness for C6: two cells are collected on the example host. -/
theorem replaceInRangeWithCount_count_witness :
    replaceCalls afterFind.trace = replaceCalls (State.init ["Sheet1"]).trace ∧
    (twoCells.length = 0 →
      replaceInRangeWithCount (exampleHost twoCells) (.str "x") (.str "y") (.str "A1:B2")
        none (State.init ["Sheet1"]) = (.ok 0, afterFind)) ∧
    (0 < twoCells.length → ∀ (range : RangeRef) (s2 : State (List String)) (v : JSVal)
        (d3 : List String),
      getRange (exampleHost twoCells) (.str "A1:B2") (.ofName none) afterFind
        = (.ok range, s2) →
      (exampleHost twoCells).call (.Replace range (.str "x") (.str "y")) s2.doc
        = (.ok v, d3) →
      replaceInRangeWithCount (exampleHost twoCells) (.str "x") (.str "y") (.str "A1:B2")
        none (State.init ["Sheet1"])
        = (.ok twoCells.length,
            { doc := d3,
              trace := s2.trace ++ [.call (.Replace range (.str "x") (.str "y"))] })) ∧
    (0 < twoCells.length → ∀ (range : RangeRef) (s2 : State (List String)),
      getRange (exampleHost twoCells) (.str "A1:B2") (.ofName none) afterFind
        = (.ok range, s2) →
      replaceCalls (replaceInRangeWithCount (exampleHost twoCells) (.str "x") (.str "y")
          (.str "A1:B2") none (State.init ["Sheet1"])).2.trace
        = replaceCalls (State.init ["Sheet1"]).trace + 1) ∧
    (∀ (n : Nat) (s1 : State (List String)),
      replaceInRangeWithCount (exampleHost twoCells) (.str "x") (.str "y") (.str "A1:B2")
        none (State.init ["Sheet1"]) = (.ok n, s1) →
      n = twoCells.length ∧
      replaceCalls s1.trace
        = replaceCalls (State.init ["Sheet1"]).trace + (if 0 < n then 1 else 0)) :=
  replaceInRangeWithCount_count (exampleHost twoCells) (.str "x") (.str "y")
    (.str "A1:B2") none (State.init ["Sheet1"]) afterFind twoCells findAllCells_twoCells

/-! ## The dispatcher -/

theorem executeFunction_run (H : Host σ) (functionName : String) (params : Argv)
    (sheetName : Option String) (s : State σ) :
    executeFunction H functionName params sheetName s
      = match dispatch H functionName params sheetName s with
        | (.ok r, s1) => (.ok [r], s1)
        | (.error e, s1) => (.ok [{ success := false, error := some e }], s1) := by
  simp only [executeFunction, tryCatch]
  rw [run_bind]
  rcases dispatch H functionName params sheetName s with ⟨r, s1⟩
  cases r <;> rfl

/-- A case of the `switch`: the delegated call `x`, then the construction `k`
of the pushed object, which cannot raise and gives `success: true`. -/
theorem case_run (x : M σ α) (k : α → M σ Result)
    (hk : ∀ (v : α) (s1 : State σ), ∃ (r : Result) (s2 : State σ),
      k v s1 = (.ok r, s2) ∧ r.success = true ∧ s2.doc = s1.doc)
    (s : State σ) :
    (∀ (m : String) (s1 : State σ), (x >>= fun _ => pure ()) s = (.error m, s1) →
      (x >>= k) s = (.error m, s1)) ∧
    (∀ s1 : State σ, (x >>= fun _ => pure ()) s = (.ok (), s1) →
      ∃ (r : Result) (s2 : State σ),
        (x >>= k) s = (.ok r, s2) ∧ r.success = true ∧ s2.doc = s1.doc) := by
  rw [run_bind, run_bind]
  rcases x s with ⟨r, s1⟩
  cases r with
  | error e =>
    constructor
    · intro m s2 h
      simp only [Prod.mk.injEq, Except.error.injEq] at h
      obtain ⟨h1, h2⟩ := h
      subst h1; subst h2; rfl
    · intro s2 h; exact absurd h (by simp)
  | ok v =>
    constructor
    · intro m s2 h; exact absurd h (by simp [run_pure])
    · intro s2 h
      have h2 : s1 = s2 := by simpa [run_pure] using h
      subst h2
      exact hk v s1

/-- Every command of the command set: an error of the delegated operation is
the error of the `switch`; without error one object with `success: true` is
pushed. -/
theorem dispatch_delegated (H : Host σ) (functionName : String) (params : Argv)
    (sheetName : Option String) (s : State σ) (hname : functionName ∈ commandNames) :
    (∀ (m : String) (s1 : State σ),
      delegated H functionName params sheetName s = (.error m, s1) →
      dispatch H functionName params sheetName s = (.error m, s1)) ∧
    (∀ s1 : State σ, delegated H functionName params sheetName s = (.ok (), s1) →
      ∃ (r : Result) (s2 : State σ),
        dispatch H functionName params sheetName s = (.ok r, s2) ∧
        r.success = true ∧ s2.doc = s1.doc) := by
  simp only [commandNames, List.mem_cons, List.mem_singleton, List.not_mem_nil,
    or_false] at hname
  rcases hname with rfl | rfl | rfl | rfl | rfl | rfl | rfl | rfl | rfl | rfl | rfl | rfl | rfl | rfl | rfl | rfl | rfl | rfl | rfl | rfl | rfl | rfl | rfl | rfl | rfl | rfl | rfl | rfl | rfl | rfl | rfl | rfl | rfl | rfl | rfl
  all_goals
    refine case_run _ _ ?_ s
    intro v s1
    exact ⟨_, _, rfl, rfl, rfl⟩

theorem dispatch_unknown (H : Host σ) (functionName : String) (params : Argv)
    (sheetName : Option String) (h : functionName ∉ commandNames) :
    dispatch H functionName params sheetName
      = pure { success := false, message := some (unknownFunction ++ functionName) } := by
  unfold dispatch
  split <;> first | rfl | (exfalso; simp [commandNames] at h)

/-! ## Claims on the dispatcher -/

/-- Claim C7.  `executeFunction` always returns a list and never raises; and it
returns the one-element list with `success: false` and the message "未知函数: "
followed by the name, in the unchanged state (no access to the object model),
exactly when the name is not one of the 35 names of the command set. -/
theorem executeFunction_unknown_iff (H : Host σ) (functionName : String)
    (params : Argv) (sheetName : Option String) (s : State σ) :
    (∃ (result : List Result) (s1 : State σ),
      executeFunction H functionName params sheetName s = (.ok result, s1)) ∧
    (executeFunction H functionName params sheetName s
        = (.ok [{ success := false,
                  message := some (unknownFunction ++ functionName) }], s)
      ↔ functionName ∉ commandNames) := by
  constructor
  · rw [executeFunction_run]
    rcases dispatch H functionName params sheetName s with ⟨r, s1⟩
    cases r with
    | ok r => exact ⟨_, _, rfl⟩
    | error e => exact ⟨_, _, rfl⟩
  · constructor
    · intro hres hname
      obtain ⟨herr, hok⟩ := dispatch_delegated H functionName params sheetName s hname
      rcases hd : delegated H functionName params sheetName s with ⟨r, s1⟩
      cases r with
      | error m =>
        rw [executeFunction_run, herr m s1 hd] at hres
        simp only [Prod.mk.injEq, Except.ok.injEq, List.cons.injEq, and_true] at hres
        have := congrArg Result.message hres.1
        simp at this
      | ok u =>
        obtain ⟨r, s2, hr, hsucc, _⟩ := hok s1 hd
        rw [executeFunction_run, hr] at hres
        simp only [Prod.mk.injEq, Except.ok.injEq, List.cons.injEq, and_true] at hres
        have := congrArg Result.success hres.1
        rw [hsucc] at this
        simp at this
    · intro hname
      rw [executeFunction_run, dispatch_unknown H functionName params sheetName hname]

/-- Claim C8.  For each of the 35 command names: when the delegated operation
raises an error with message `m`, `executeFunction` returns exactly the list
`[{success: false, error: m}]`, in the state the operation left; when it does
not raise, `executeFunction` returns a list of exactly one element, whose
`success` is `true`. -/
theorem executeFunction_known (H : Host σ) (functionName : String) (params : Argv)
    (sheetName : Option String) (s : State σ) (hname : functionName ∈ commandNames) :
    (∀ (m : String) (s1 : State σ),
      delegated H functionName params sheetName s = (.error m, s1) →
      executeFunction H functionName params sheetName s
        = (.ok [{ success := false, error := some m }], s1)) ∧
    (∀ s1 : State σ, delegated H functionName params sheetName s = (.ok (), s1) →
      ∃ (r : Result) (s2 : State σ),
        executeFunction H functionName params sheetName s = (.ok [r], s2) ∧
        r.success = true ∧ s2.doc = s1.doc) := by
  obtain ⟨herr, hok⟩ := dispatch_delegated H functionName params sheetName s hname
  constructor
  · intro m s1 hd
    rw [executeFunction_run, herr m s1 hd]
  · intro s1 hd
    obtain ⟨r, s2, hr, hsucc, hdoc⟩ := hok s1 hd
    exact ⟨r, s2, by rw [executeFunction_run, hr], hsucc, hdoc⟩

/-- Witness for C8: `setCellValue` without an address on the example host, where
`Range` raises "invalid address". -/
theorem executeFunction_known_witness :
    "setCellValue" ∈ commandNames ∧
    executeFunction (exampleHost []) "setCellValue" emptyArgv none (State.init ["Sheet1"])
      = (.ok [{ success := false, error := some "invalid address" }],
          { doc := ["Sheet1"], trace := [.ActiveSheet, .call (.Range 0 .undefined)] }) :=
  ⟨by decide,
    (executeFunction_known (exampleHost []) "setCellValue" emptyArgv none
      (State.init ["Sheet1"]) (by decide)).1 "invalid address"
      { doc := ["Sheet1"], trace := [.ActiveSheet, .call (.Range 0 .undefined)] } rfl⟩

/-! ## Column codec -/

theorem char_toNat_letter (r : Nat) (hr : r < 26) : (Char.ofNat (65 + r)).toNat = 65 + r := by
  interval_cases r <;> rfl

theorem roundNat_exact (n : Nat) (h : n < 2 ^ 53) : roundNat n = n := by
  have hp : ulpFrom n n 1 = 1 := by
    cases n with
    | zero => rfl
    | succ k =>
      simp only [ulpFrom]
      rw [if_pos (by omega)]
  simp [roundNat, hp, Nat.mod_one]

/-- Integers of magnitude below `2 ^ 53` are doubles. -/
theorem toDouble_exact (x : Int) (h : x.natAbs < 2 ^ 53) : toDouble x = x := by
  unfold toDouble
  rw [roundNat_exact _ h]
  split <;> omega

theorem columnNumberToLetterLoop_fold :
    ∀ (n columnNumber : Nat) (letter : String), columnNumber ≤ n →
      columnNumber < 2 ^ 53 →
      (columnNumberToLetterLoop columnNumber letter).data.foldl
          (fun result c => jsAdd (jsMul result 26) ((c.toNat : Int) - 64)) 0
        = letter.data.foldl
            (fun result c => jsAdd (jsMul result 26) ((c.toNat : Int) - 64))
            (columnNumber : Int) := by
  intro n
  induction n with
  | zero =>
    intro columnNumber letter h _
    have h0 : columnNumber = 0 := by omega
    subst h0
    rw [columnNumberToLetterLoop]
    simp
  | succ n ih =>
    intro columnNumber letter h hlt
    rw [columnNumberToLetterLoop]
    by_cases hpos : columnNumber > 0
    · rw [if_pos hpos]
      simp only []
      have hdiv : (columnNumber - 1) / 26 ≤ n := by
        have := Nat.div_le_self (columnNumber - 1) 26
        omega
      have hdivlt : (columnNumber - 1) / 26 < 2 ^ 53 := by
        have := Nat.div_le_self (columnNumber - 1) 26
        omega
      rw [ih _ _ hdiv hdivlt]
      have hr : (columnNumber - 1) % 26 < 26 := Nat.mod_lt _ (by decide)
      have hs : ∀ c : Char, (String.singleton c).data = [c] := fun _ => rfl
      simp only [String.data_append, hs, List.singleton_append,
        List.foldl_cons, char_toNat_letter _ hr]
      congr 1
      have hdm := Nat.div_add_mod (columnNumber - 1) 26
      generalize (columnNumber - 1) / 26 = m at hdm ⊢
      generalize (columnNumber - 1) % 26 = r at hdm hr ⊢
      have hmul : jsMul (m : Int) 26 = (m : Int) * 26 := by
        unfold jsMul
        exact toDouble_exact _ (by omega)
      rw [hmul]
      unfold jsAdd
      rw [toDouble_exact _ (by omega)]
      push_cast
      omega
    · have h0 : columnNumber = 0 := by omega
      subst h0
      simp

/-- The letters `columnNumberToLetter` gives for a column number below `2 ^ 53`
denote that number. -/
theorem columnLetterToNumber_columnNumberToLetter (n : Nat) (h : n < 2 ^ 53) :
    columnLetterToNumber (columnNumberToLetter n) = n := by
  unfold columnLetterToNumber columnNumberToLetter
  rw [columnNumberToLetterLoop_fold n n "" (le_refl n) h]
  rfl

/-! ## Claims on the bulk-write path -/

/-- A successful range access by optional sheet name makes one host call,
`Range(address)`, on the sheet that `getWorksheetByName` resolves the name to. -/
theorem getRange_ofName_ok (H : Host σ) (address : JSVal) (sheetName : Option String)
    (s s2 : State σ) (range : RangeRef)
    (h : getRange H address (.ofName sheetName) s = (.ok range, s2)) :
    ∃ ws : SheetRef, (getWorksheetByName H sheetName s).1 = .ok (some ws) ∧
      calls s2.trace = calls s.trace ++ [.call (.Range ws address)] := by
  have hactive :
      ext H (.Range (H.activeSheet s.doc) address) (s.log .ActiveSheet) = (.ok range, s2) →
      calls s2.trace
        = calls s.trace ++ [.call (.Range (H.activeSheet s.doc) address)] := by
    intro harg
    simp only [ext, Prod.mk.injEq] at harg
    rw [← harg.2]
    simp only []
    rw [calls_append_call, (Quiet.log s .ActiveSheet rfl).2]
  cases sheetName with
  | none => exact ⟨H.activeSheet s.doc, rfl, hactive h⟩
  | some N =>
    by_cases hN : N = ""
    · subst hN
      exact ⟨H.activeSheet s.doc, rfl, hactive h⟩
    · obtain ⟨r, s1, hr, hq⟩ := getWorksheetByName_total H (some N) s
      have hrun : getRange H address (.ofName (some N)) s
          = (match r with
              | some ws => ext H (.Range ws address) s1
              | none => (.error (worksheetNotFound ++ N), s1)) := by
        simp only [getRange, SheetArg.ofName, if_neg hN]
        rw [run_bind, run_bind_ok _ _ _ _ _ hr]
        cases r <;> rfl
      rw [hrun] at h
      cases r with
      | none => cases h
      | some ws =>
        refine ⟨ws, by rw [hr], ?_⟩
        simp only [ext, Prod.mk.injEq] at h
        rw [← h.2]
        simp only []
        rw [calls_append_call, hq.2]

/-- A successful `setRangeValues` makes exactly two host calls: the range
request on the resolved sheet and one assignment of `values` to that range. -/
theorem setRangeValues_ok (H : Host σ) (address values : JSVal)
    (sheetName : Option String) (s s1 : State σ)
    (h : setRangeValues H address values sheetName s = (.ok (), s1)) :
    ∃ (ws : SheetRef) (range : RangeRef),
      (getWorksheetByName H sheetName s).1 = .ok (some ws) ∧
      calls s1.trace = calls s.trace ++
        [.call (.Range ws address), .call (.Value_set range values)] := by
  simp only [setRangeValues] at h
  rcases hrange : getRange H address (.ofName sheetName) s with ⟨res, s2⟩
  cases res with
  | error e =>
    rw [run_bind_error _ _ _ _ _ hrange] at h
    cases h
  | ok range =>
    rw [run_bind_ok _ _ _ _ _ hrange] at h
    obtain ⟨ws, hws, hcalls⟩ := getRange_ofName_ok H address sheetName s s2 range hrange
    refine ⟨ws, range, hws, ?_⟩
    simp only [ext, Prod.mk.injEq] at h
    rw [← h.2]
    simp only []
    rw [calls_append_call, hcalls]
    simp

theorem bulkWrite_run (H : Host σ) (row rest : List JSVal) (sheetName : Option String)
    (s : State σ) (hcols : 0 < row.length) :
    bulkWrite H (.arr row :: rest) sheetName s
      = match setRangeValues H
            (.str ("A1:" ++ columnNumberToLetter row.length
              ++ toString (JSVal.arr row :: rest).length))
            (.arr (.arr row :: rest)) sheetName s with
        | (.ok _, s1) =>
          (.ok [{ success := true, message := some "数据写入成功",
                  rowsWritten := some (JSVal.arr row :: rest).length,
                  range := some ("A1:" ++ columnNumberToLetter row.length
                    ++ toString (JSVal.arr row :: rest).length) }], s1)
        | (.error e, s1) => (.ok [{ success := false, error := some e }], s1) := by
  have hcond : (JSVal.arr row :: rest).length > 0 ∧ row.length > 0 :=
    ⟨by simp, hcols⟩
  simp only [bulkWrite, tryCatch, List.getElem?_cons_zero, JSVal.truthy, JSVal.length,
    if_true, if_pos hcond]
  rw [run_bind]
  rcases setRangeValues H _ (.arr (.arr row :: rest)) sheetName s with ⟨r, s1⟩
  cases r <;> rfl

/-- Claim C9.  For a matrix `items` with `rows >= 1` rows whose first row is an
array of `cols >= 1` entries (`cols < 2 ^ 32`, as the length of every JS array
is), when the write succeeds: the entry point returns
exactly one result, with `success: true`, `rowsWritten = rows` and `range` the
address "A1:" followed by `columnNumberToLetter(cols)` and the decimal numeral
of `rows`; the host calls made are exactly the request of the range of that
address on the sheet the context's sheet name resolves to and one assignment of
the whole matrix to it; and the column letters of the address denote `cols`. -/
theorem entryPoint_bulkWrite (H : Host σ) (argv : Argv) (sheetName : Option String)
    (row rest : List JSVal) (s s1 : State σ)
    (hitems : argv.items = .arr (.arr row :: rest)) (hcols : 0 < row.length)
    (hlen : row.length < 2 ^ 32)
    (hwrite : setRangeValues H
      (.str ("A1:" ++ columnNumberToLetter row.length
        ++ toString (JSVal.arr row :: rest).length))
      (.arr (.arr row :: rest)) sheetName s = (.ok (), s1)) :
    entryPoint H (some { argv := some argv, active_sheet := sheetName }) s
      = (.ok [{ success := true, message := some "数据写入成功",
                rowsWritten := some (JSVal.arr row :: rest).length,
                range := some ("A1:" ++ columnNumberToLetter row.length
                  ++ toString (JSVal.arr row :: rest).length) }], s1) ∧
    (∃ (ws : SheetRef) (range : RangeRef),
      (getWorksheetByName H sheetName s).1 = .ok (some ws) ∧
      calls s1.trace = calls s.trace ++
        [.call (.Range ws (.str ("A1:" ++ columnNumberToLetter row.length
            ++ toString (JSVal.arr row :: rest).length))),
         .call (.Value_set range (.arr (.arr row :: rest)))]) ∧
    columnLetterToNumber (columnNumberToLetter row.length) = row.length := by
  refine ⟨?_, setRangeValues_ok H _ _ sheetName s s1 hwrite,
    columnLetterToNumber_columnNumberToLetter row.length (by omega)⟩
  simp only [entryPoint, hitems, tryCatch]
  rw [bulkWrite_run H row rest sheetName s hcols, hwrite]

theorem address_two_by_two : "A1:" ++ columnNumberToLetter 2 ++ toString 2 = "A1:B2" := by
  have h : columnNumberToLetter 2 = "B" := by
    simp [columnNumberToLetter, columnNumberToLetterLoop]
    decide
  rw [h]
  decide

/-- Witness for C9: `items = [[1, 2], [3, 4]]` on the active sheet of the example
host gives the address "A1:B2" and `rowsWritten: 2`. -/
theorem entryPoint_bulkWrite_witness :
    entryPoint (exampleHost []) (some { argv := some matrixArgv, active_sheet := none })
        (State.init ["Sheet1"])
      = (.ok [{ success := true, message := some "数据写入成功",
                rowsWritten := some 2, range := some "A1:B2" }],
          { doc := ["Sheet1"],
            trace := [.ActiveSheet, .call (.Range 0 (.str "A1:B2")),
              .call (.Value_set 0 (.arr [.arr [.num 1, .num 2], .arr [.num 3, .num 4]]))] }) ∧
    (∃ (ws : SheetRef) (range : RangeRef),
      (getWorksheetByName (exampleHost []) none (State.init ["Sheet1"])).1 = .ok (some ws) ∧
      calls [.ActiveSheet, .call (.Range 0 (.str "A1:B2")),
          .call (.Value_set 0 (.arr [.arr [.num 1, .num 2], .arr [.num 3, .num 4]]))]
        = calls (State.init ["Sheet1"]).trace ++
          [.call (.Range ws (.str "A1:B2")),
           .call (.Value_set range (.arr [.arr [.num 1, .num 2], .arr [.num 3, .num 4]]))]) ∧
    columnLetterToNumber (columnNumberToLetter 2) = 2 := by
  have e : "A1:" ++ columnNumberToLetter [JSVal.num 1, JSVal.num 2].length
      ++ toString [JSVal.arr [.num 1, .num 2], JSVal.arr [.num 3, .num 4]].length
      = "A1:B2" := address_two_by_two
  have h := entryPoint_bulkWrite (exampleHost []) matrixArgv none
    [.num 1, .num 2] [.arr [.num 3, .num 4]] (State.init ["Sheet1"])
    { doc := ["Sheet1"],
      trace := [.ActiveSheet,
        .call (.Range 0 (.str ("A1:" ++ columnNumberToLetter [JSVal.num 1, JSVal.num 2].length
          ++ toString [JSVal.arr [.num 1, .num 2], JSVal.arr [.num 3, .num 4]].length))),
        .call (.Value_set 0 (.arr [.arr [.num 1, .num 2], .arr [.num 3, .num 4]]))] }
    rfl (by decide) (by decide) rfl
  rw [e] at h
  exact h

/-- Claim C10.  For an `items` array with no row, or whose first row is missing
(`undefined` or `null`) or has length zero, the entry point returns exactly the
one result `{success: false, message: "数据为空"}` in the unchanged state: no
access to the object model at all, so no write and no sheet or range
resolution. -/
theorem entryPoint_emptyData (H : Host σ) (argv : Argv) (sheetName : Option String)
    (data : List JSVal) (s : State σ) (hitems : argv.items = .arr data)
    (hempty : data = [] ∨ ∃ (row : JSVal) (rest : List JSVal), data = row :: rest ∧
      (row = .undefined ∨ row = .null ∨ row.length = some 0)) :
    entryPoint H (some { argv := some argv, active_sheet := sheetName }) s
      = (.ok [{ success := false, message := some emptyData }], s) := by
  have hb : bulkWrite H data sheetName s
      = (.ok [{ success := false, message := some emptyData }], s) := by
    rcases hempty with rfl | ⟨row, rest, rfl, hrow⟩
    · rfl
    · have hcols : (if row.truthy then row.length else some 0) = some 0 := by
        rcases hrow with rfl | rfl | hlen
        · rfl
        · rfl
        · rw [hlen]; simp
      have hno : ¬ ((row :: rest).length > 0 ∧ 0 > 0) := fun h => absurd h.2 (by decide)
      simp only [bulkWrite, tryCatch, List.getElem?_cons_zero, hcols, if_neg hno]
  simp only [entryPoint, hitems, tryCatch]
  rw [hb]

/-- Witness for C10: `items = [[]]`. -/
theorem entryPoint_emptyData_witness :
    entryPoint (exampleHost []) (some { argv := some emptyRowArgv, active_sheet := none })
        (State.init ["Sheet1"])
      = (.ok [{ success := false, message := some emptyData }], State.init ["Sheet1"]) :=
  entryPoint_emptyData (exampleHost []) emptyRowArgv none [.arr []] (State.init ["Sheet1"])
    rfl (Or.inr ⟨.arr [], [], rfl, Or.inr (Or.inr rfl)⟩)

/-! ## Claims on the column codec -/

theorem letter_code (c : Char) (h : 'A' ≤ c ∧ c ≤ 'Z') : 65 ≤ c.toNat ∧ c.toNat ≤ 90 := by
  obtain ⟨h1, h2⟩ := h
  rw [Char.le_def] at h1 h2
  exact ⟨h1, h2⟩

/-- On upper-case letters, while `(acc + 1) * 27 ^ length` stays within
`2 ^ 53`, no step of `columnLetterToNumber` rounds: the result is the exact
bijective base-26 value, and it stays within the same bound. -/
theorem fold_letters_exact :
    ∀ (cs : List Char) (acc : Int), 0 ≤ acc → (∀ c ∈ cs, 'A' ≤ c ∧ c ≤ 'Z') →
      (acc + 1) * 27 ^ cs.length ≤ 2 ^ 53 →
      cs.foldl (fun result c => jsAdd (jsMul result 26) ((c.toNat : Int) - 64)) acc
        = cs.foldl (fun result c => result * 26 + ((c.toNat : Int) - 64)) acc ∧
      acc ≤ cs.foldl (fun result c => result * 26 + ((c.toNat : Int) - 64)) acc ∧
      cs.foldl (fun result c => result * 26 + ((c.toNat : Int) - 64)) acc + 1
        ≤ (acc + 1) * 27 ^ cs.length := by
  intro cs
  induction cs with
  | nil => intro acc _ _ _; simp
  | cons c cs ih =>
    intro acc hacc hup hbound
    obtain ⟨hc1, hc2⟩ := letter_code c (hup c (List.mem_cons_self c cs))
    have hpow : (1 : Int) ≤ 27 ^ cs.length := one_le_pow₀ (by norm_num)
    have hstep : (acc * 26 + ((c.toNat : Int) - 64) + 1) * 27 ^ cs.length
        ≤ (acc + 1) * 27 ^ (c :: cs).length := by
      have h5 : acc * 26 + ((c.toNat : Int) - 64) + 1 ≤ (acc + 1) * 27 := by omega
      calc (acc * 26 + ((c.toNat : Int) - 64) + 1) * 27 ^ cs.length
          ≤ (acc + 1) * 27 * 27 ^ cs.length :=
            mul_le_mul_of_nonneg_right h5 (by positivity)
        _ = (acc + 1) * 27 ^ (c :: cs).length := by
            rw [List.length_cons, pow_succ]; ring
    have h27 : (acc + 1) * 27 ≤ 2 ^ 53 := by
      calc (acc + 1) * 27 ≤ (acc + 1) * 27 * 27 ^ cs.length :=
            le_mul_of_one_le_right (by omega) hpow
        _ = (acc + 1) * 27 ^ (c :: cs).length := by
            rw [List.length_cons, pow_succ]; ring
        _ ≤ 2 ^ 53 := hbound
    have hmul : jsMul acc 26 = acc * 26 := by
      unfold jsMul
      exact toDouble_exact _ (by omega)
    have hadd : jsAdd (acc * 26) ((c.toNat : Int) - 64) = acc * 26 + ((c.toNat : Int) - 64) := by
      unfold jsAdd
      exact toDouble_exact _ (by omega)
    obtain ⟨h1, h2, h3⟩ := ih (acc * 26 + ((c.toNat : Int) - 64)) (by omega)
      (fun x hx => hup x (List.mem_cons_of_mem c hx)) (hstep.trans hbound)
    simp only [List.foldl_cons, hmul, hadd]
    exact ⟨h1, by omega, h3.trans hstep⟩

/-- One pass of the loop of `columnNumberToLetter` takes the last letter off. -/
theorem columnNumberToLetterLoop_snoc (m : Nat) (c : Char) (letter : String)
    (hc : 65 ≤ c.toNat ∧ c.toNat ≤ 90) :
    columnNumberToLetterLoop (26 * m + (c.toNat - 64)) letter
      = columnNumberToLetterLoop m (String.singleton c ++ letter) := by
  rw [columnNumberToLetterLoop, if_pos (by omega)]
  simp only []
  have h1 : (26 * m + (c.toNat - 64) - 1) % 26 = c.toNat - 65 := by omega
  have h2 : (26 * m + (c.toNat - 64) - 1) / 26 = m := by omega
  have h3 : 65 + (c.toNat - 65) = c.toNat := by omega
  rw [h1, h2, h3, Char.ofNat_toNat]

/-- The exact bijective base-26 value of a string of upper-case letters is
decoded by the loop of `columnNumberToLetter` to that string. -/
theorem columnNumberToLetterLoop_value (cs : List Char) :
    (∀ c ∈ cs, 'A' ≤ c ∧ c ≤ 'Z') → ∀ letter : String,
      0 ≤ cs.foldl (fun result c => result * 26 + ((c.toNat : Int) - 64)) (0 : Int) ∧
      columnNumberToLetterLoop
          (cs.foldl (fun result c => result * 26 + ((c.toNat : Int) - 64)) (0 : Int)).toNat
          letter
        = String.mk (cs ++ letter.data) := by
  induction cs using List.reverseRecOn with
  | nil =>
    intro _ letter
    refine ⟨le_refl _, ?_⟩
    simp only [List.foldl_nil, Int.toNat_zero, List.nil_append]
    rw [columnNumberToLetterLoop, if_neg (by decide)]
  | append_singleton cs c ih =>
    intro hup letter
    have hcs : ∀ x ∈ cs, 'A' ≤ x ∧ x ≤ 'Z' :=
      fun x hx => hup x (List.mem_append_left [c] hx)
    have hc := letter_code c (hup c (by simp))
    obtain ⟨hnn, hrun⟩ := ih hcs (String.singleton c ++ letter)
    simp only [List.foldl_append, List.foldl_cons, List.foldl_nil]
    generalize hv : cs.foldl (fun result c => result * 26 + ((c.toNat : Int) - 64)) (0 : Int)
      = v at hnn hrun ⊢
    have htoNat : (v * 26 + ((c.toNat : Int) - 64)).toNat = 26 * v.toNat + (c.toNat - 64) := by
      omega
    refine ⟨by omega, ?_⟩
    rw [htoNat, columnNumberToLetterLoop_snoc _ _ _ hc, hrun]
    have hs : (String.singleton c ++ letter).data = c :: letter.data := rfl
    rw [hs]
    simp

set_option maxRecDepth 100000 in
/-- Counterexample for C11 as stated: the two 12-letter strings "CAAAAAAAAAAA"
and "CAAAAAAAAAAB" get the same number, 11157847240442840 (the exact value of
the first, 11157847240442839, lies above `2 ^ 53` and is no double), so the
round trip cannot return both: it does not hold for every non-empty string of
upper-case letters. -/
theorem columnLetterToNumber_roundtrip_fails :
    columnLetterToNumber "CAAAAAAAAAAA" = 11157847240442840 ∧
    columnLetterToNumber "CAAAAAAAAAAB" = 11157847240442840 ∧
    ¬ ∀ s : String, s ≠ "" → (∀ c ∈ s.data, 'A' ≤ c ∧ c ≤ 'Z') →
      columnNumberToLetter (columnLetterToNumber s).toNat = s := by
  have e1 : columnLetterToNumber "CAAAAAAAAAAA" = 11157847240442840 := by decide
  have e2 : columnLetterToNumber "CAAAAAAAAAAB" = 11157847240442840 := by decide
  refine ⟨e1, e2, fun h => ?_⟩
  have h1 := h "CAAAAAAAAAAA" (by decide) (by decide)
  have h2 := h "CAAAAAAAAAAB" (by decide) (by decide)
  rw [e1] at h1
  rw [e2] at h2
  exact absurd (h1.symm.trans h2) (by decide)

/-- Claim C11, amended.  For every non-empty string `s` of at most 11
upper-case letters A-Z, `columnLetterToNumber(s)` is a positive integer below
`2 ^ 53` and `columnNumberToLetter(columnLetterToNumber(s)) = s`. -/
theorem columnNumberToLetter_columnLetterToNumber (s : String) (hne : s ≠ "")
    (hup : ∀ c ∈ s.data, 'A' ≤ c ∧ c ≤ 'Z') (hlen : s.data.length ≤ 11) :
    0 < columnLetterToNumber s ∧ columnLetterToNumber s < 2 ^ 53 ∧
    columnNumberToLetter (columnLetterToNumber s).toNat = s := by
  have hpow : (27 : Int) ^ s.data.length ≤ 27 ^ 11 :=
    pow_le_pow_right₀ (by norm_num) hlen
  have hbound : ((0 : Int) + 1) * 27 ^ s.data.length ≤ 2 ^ 53 := by
    have : (27 : Int) ^ 11 ≤ 2 ^ 53 := by norm_num
    omega
  obtain ⟨hexact, _, hle⟩ := fold_letters_exact s.data 0 (le_refl _) hup hbound
  obtain ⟨_, hrun⟩ := columnNumberToLetterLoop_value s.data hup ""
  have hval : columnLetterToNumber s
      = s.data.foldl (fun result c => result * 26 + ((c.toNat : Int) - 64)) 0 := hexact
  have hpos : 0 < s.data.foldl (fun result c => result * 26 + ((c.toNat : Int) - 64))
      (0 : Int) := by
    cases hd : s.data with
    | nil => exact absurd (String.ext hd) hne
    | cons c cs =>
      rw [hd] at hup
      obtain ⟨hc1, _⟩ := letter_code c (hup c (List.mem_cons_self c cs))
      have hpow1 : ((0 : Int) * 26 + ((c.toNat : Int) - 64) + 1) * 27 ^ cs.length ≤ 2 ^ 53 := by
        have h1 : (1 : Int) ≤ 27 ^ cs.length := one_le_pow₀ (by norm_num)
        have h2 : (27 : Int) ^ cs.length * 27 ≤ 2 ^ 53 := by
          have h3 : (27 : Int) ^ (cs.length + 1) ≤ 27 ^ 11 :=
            pow_le_pow_right₀ (by norm_num) (by rw [hd] at hlen; simpa using hlen)
          have h4 : (27 : Int) ^ 11 ≤ 2 ^ 53 := by norm_num
          rw [pow_succ] at h3
          omega
        have hc2 := (letter_code c (hup c (List.mem_cons_self c cs))).2
        have h5 : ((0 : Int) * 26 + ((c.toNat : Int) - 64) + 1) ≤ 27 := by omega
        calc ((0 : Int) * 26 + ((c.toNat : Int) - 64) + 1) * 27 ^ cs.length
            ≤ 27 * 27 ^ cs.length := mul_le_mul_of_nonneg_right h5 (by positivity)
          _ = 27 ^ cs.length * 27 := by ring
          _ ≤ 2 ^ 53 := h2
      obtain ⟨_, h2, _⟩ := fold_letters_exact cs ((0 : Int) * 26 + ((c.toNat : Int) - 64))
        (by omega) (fun x hx => hup x (List.mem_cons_of_mem c hx)) hpow1
      simp only [List.foldl_cons]
      omega
  refine ⟨by rw [hval]; exact hpos, ?_, ?_⟩
  · rw [hval]
    have : (27 : Int) ^ 11 < 2 ^ 53 := by norm_num
    omega
  · unfold columnNumberToLetter
    rw [hval, hrun]
    simp

/-- Witness for C11 amended: the last column of a sheet of 16384 columns. -/
theorem columnNumberToLetter_columnLetterToNumber_witness :
    0 < columnLetterToNumber "XFD" ∧ columnLetterToNumber "XFD" < 2 ^ 53 ∧
    columnNumberToLetter (columnLetterToNumber "XFD").toNat = "XFD" :=
  columnNumberToLetter_columnLetterToNumber "XFD" (by decide) (by decide) (by decide)

/-! ## Claims on unresolved sheets -/

/-- Claim C12.  For every address and every non-empty sheet name that
`getWorksheetByName` resolves to `null`, `getRange` raises the error whose
message is "未找到工作表: " followed by that name; up to there it only read the
sheet collection: the document is unchanged and no host call was made, so no
range was requested from any sheet. -/
theorem getRange_unresolved (H : Host σ) (address : JSVal) (N : String) (s : State σ)
    (hN : N ≠ "") (hnull : (getWorksheetByName H (some N) s).1 = .ok none) :
    ∃ s1 : State σ,
      getRange H address (.name N) s = (.error (worksheetNotFound ++ N), s1) ∧
      s1.doc = s.doc ∧ calls s1.trace = calls s.trace := by
  obtain ⟨r, s1, h, hq⟩ := getWorksheetByName_total H (some N) s
  rw [h] at hnull
  have hr : r = none := by simpa using hnull
  subst hr
  refine ⟨s1, ?_, hq.1, hq.2⟩
  simp only [getRange, if_neg hN]
  rw [run_bind, run_bind_ok _ _ _ _ _ h]
  rfl

/-- Witness for C12: the name "Nope" in the workbook "Sheet1". -/
theorem getRange_unresolved_witness :
    ∃ s1 : State (List String),
      getRange (exampleHost []) (.str "A1") (.name "Nope") (State.init ["Sheet1"])
        = (.error (worksheetNotFound ++ "Nope"), s1) ∧
      s1.doc = (State.init ["Sheet1"]).doc ∧
      calls s1.trace = calls (State.init ["Sheet1"]).trace :=
  getRange_unresolved (exampleHost []) (.str "A1") "Nope" (State.init ["Sheet1"])
    (by decide) rfl

/-- With a sheet name that `getWorksheetByName` resolves to `null`, every
operation that resolves the sheet itself reads a member of `null`: the error is
the `TypeError` of the engine, the same for every sheet name, raised before any
host call; `deleteRows` and `deleteColumns` with a count of 0 read no member and
succeed. -/
theorem operations_unresolved (H : Host σ) (N : String) (s : State σ)
    (hnull : (getWorksheetByName H (some N) s).1 = .ok none)
    (index value : JSVal) (count : Option Int) :
    (insertRows H index count (some N) s).1 = .error (typeError "null" "Rows") ∧
    (insertColumns H index count (some N) s).1 = .error (typeError "null" "Columns") ∧
    (setRowHeight H index value (some N) s).1 = .error (typeError "null" "Rows") ∧
    (setColumnWidth H index value (some N) s).1 = .error (typeError "null" "Columns") ∧
    (getUsedRangeData H (some N) s).1 = .error (typeError "null" "UsedRange") ∧
    (deleteRows H index none (some N) s).1 = .error (typeError "null" "Rows") ∧
    (deleteColumns H index none (some N) s).1 = .error (typeError "null" "Columns") ∧
    (deleteRows H index (some 0) (some N) s).1 = .ok () ∧
    (deleteColumns H index (some 0) (some N) s).1 = .ok () := by
  obtain ⟨r, s1, h, _⟩ := getWorksheetByName_total H (some N) s
  rw [h] at hnull
  have hr : r = none := by simpa using hnull
  subst hr
  refine ⟨?_, ?_, ?_, ?_, ?_, ?_, ?_, ?_, ?_⟩
  · simp only [insertRows]; rw [run_bind_ok _ _ _ _ _ h]; rfl
  · simp only [insertColumns]; rw [run_bind_ok _ _ _ _ _ h]; rfl
  · simp only [setRowHeight]; rw [run_bind_ok _ _ _ _ _ h]; rfl
  · simp only [setColumnWidth]; rw [run_bind_ok _ _ _ _ _ h]; rfl
  · simp only [getUsedRangeData]; rw [run_bind_ok _ _ _ _ _ h]; rfl
  · simp only [deleteRows]; rw [run_bind_ok _ _ _ _ _ h]; rfl
  · simp only [deleteColumns]; rw [run_bind_ok _ _ _ _ _ h]; rfl
  · simp only [deleteRows]; rw [run_bind_ok _ _ _ _ _ h]; rfl
  · simp only [deleteColumns]; rw [run_bind_ok _ _ _ _ _ h]; rfl

/-- Claim C13, the code at an input that breaks it: in the workbook "Sheet1"
the name "Nope" matches no sheet; `getRange` raises "未找到工作表: Nope", but
`insertRows(1, 1, "Nope")` raises the `TypeError` of reading `Rows` from `null`,
a message that does not name the sheet (it is the same for the name "Other"),
and `deleteRows(1, 0, "Nope")` does not fail at all.  No host call is made. -/
theorem insertRows_unresolved :
    (getRange (exampleHost []) (.str "A1") (.name "Nope") (State.init ["Sheet1"])).1
      = .error (worksheetNotFound ++ "Nope") ∧
    (insertRows (exampleHost []) (.num 1) (some 1) (some "Nope") (State.init ["Sheet1"])).1
      = .error (typeError "null" "Rows") ∧
    typeError "null" "Rows" ≠ worksheetNotFound ++ "Nope" ∧
    (insertRows (exampleHost []) (.num 1) (some 1) (some "Other") (State.init ["Sheet1"])).1
      = .error (typeError "null" "Rows") ∧
    calls (insertRows (exampleHost []) (.num 1) (some 1) (some "Nope")
      (State.init ["Sheet1"])).2.trace = [] ∧
    (deleteRows (exampleHost []) (.num 1) (some 0) (some "Nope") (State.init ["Sheet1"])).1
      = .ok () :=
  ⟨rfl, rfl, by decide, rfl, rfl, rfl⟩

/-! ## Claims on colours and fonts -/

/-- Claim C14.  For all integers `r`, `g`, `b` in `[0, 255]`,
`rgbToExcelColor(r, g, b)` is `r + g * 256 + b * 256 * 256` in exact integer
arithmetic: no operation of the source rounds. -/
theorem rgbToExcelColor_exact (r g b : Int) (hr : 0 ≤ r ∧ r ≤ 255)
    (hg : 0 ≤ g ∧ g ≤ 255) (hb : 0 ≤ b ∧ b ≤ 255) :
    rgbToExcelColor r g b = r + g * 256 + b * 256 * 256 := by
  unfold rgbToExcelColor jsAdd jsMul
  rw [toDouble_exact (g * 256) (by omega), toDouble_exact (b * 256) (by omega),
    toDouble_exact (b * 256 * 256) (by omega), toDouble_exact (r + g * 256) (by omega),
    toDouble_exact (r + g * 256 + b * 256 * 256) (by omega)]

/-- Witness for C14: white. -/
theorem rgbToExcelColor_exact_witness :
    rgbToExcelColor 255 255 255 = 255 + 255 * 256 + 255 * 256 * 256 :=
  rgbToExcelColor_exact 255 255 255 (by decide) (by decide) (by decide)

set_option maxRecDepth 100000 in
/-- Claim C15, the code at an input that breaks it: on a font in bold red, the
bag `{bold: false, color: rgbToExcelColor(0, 0, 0)}`, whose colour is 0, makes
`setCellFont` assign `Bold` (tested with `!== undefined`) but not `Color`
(tested for truthiness, and 0 is falsy): the only host calls are the range
request, the read of `Font` and the assignment of `Bold`, and the colour of the
font is still 255, not 0. -/
theorem setCellFont_black_not_set :
    rgbToExcelColor 0 0 0 = 0 ∧
    (setCellFont fontHost (.str "A1") (some blackNotBold) none (State.init redArial)).1
      = .ok () ∧
    (setCellFont fontHost (.str "A1") (some blackNotBold) none (State.init redArial)).2.trace
      = [.ActiveSheet, .call (.Range 0 (.str "A1")), .call (.Font 0),
         .call (.Font_Bold_set 0 (.bool false))] ∧
    (setCellFont fontHost (.str "A1") (some blackNotBold) none (State.init redArial)).2.doc
      = { redArial with Bold := .bool false } ∧
    (JSVal.num 255 ≠ JSVal.num 0) := by
  have h0 : rgbToExcelColor 0 0 0 = 0 := by decide
  refine ⟨h0, ?_, ?_, ?_, by simp⟩
  · simp only [blackNotBold, h0]; rfl
  · simp only [blackNotBold, h0]; rfl
  · simp only [blackNotBold, h0]; rfl

end AirSheet
